import Mathlib

/-!
Verification of the Impeller Vulkan render-pass encoder
(`impeller/renderer/backend/vulkan/render_pass_vk.cc`) and the Canvas
save/restore stack (`impeller/aiks/canvas.h`), as a shallow embedding.

Vulkan handles (images, descriptor sets, buffers, pipelines) are modelled
as opaque natural-number identities.  The mutable per-texture layout state
tracked by `TextureVK` and the stream of commands recorded on the command
buffer are threaded explicitly through a `VKState` value.
-/

namespace Impeller

/-- Image layouts, after `vk::ImageLayout`.  Only the layouts the encoder
inspects or produces are modelled. -/
inductive ImageLayout
  | eUndefined
  | eGeneral
  | eColorAttachmentOptimal
  | eDepthStencilAttachmentOptimal
  | eShaderReadOnlyOptimal
  | ePresentSrcKHR
  deriving DecidableEq, Repr

/-- Load actions, after `impeller::LoadAction`. -/
inductive LoadAction
  | kDontCare
  | kLoad
  | kClear
  deriving DecidableEq, Repr

/-- Store actions, after `impeller::StoreAction` as the spec describes it
(store or don't-care). -/
inductive StoreAction
  | kDontCare
  | kStore
  deriving DecidableEq, Repr

/-- Storage modes, after `impeller::StorageMode`. -/
inductive StorageMode
  | kHostVisible
  | kDevicePrivate
  | kDeviceTransient
  deriving DecidableEq, Repr

/-- The slice of `impeller::TextureDescriptor` the encoder reads: storage
mode, pixel format and sample count (the latter two opaque). -/
structure TextureDescriptor where
  storage_mode : StorageMode
  format : Nat
  sample_count : Nat
  deriving DecidableEq, Repr

/-- A texture: an opaque image-resource identity plus its descriptor.  The
mutable layout tracked by `TextureVK` lives in `VKState`, keyed by `id`. -/
structure Texture where
  id : Nat
  desc : TextureDescriptor
  deriving DecidableEq, Repr

/-- Modelled from the spec: `BarrierVK` (barrier_vk.h is not under src/).
Per the glossary a barrier changes a resource's layout; the fields the
claims read are the target texture and the new layout. -/
structure BarrierVK where
  tex : Nat
  new_layout : ImageLayout
  deriving DecidableEq, Repr

/-- Index types, after `impeller::IndexType`. -/
inductive IndexType
  | kNone
  | k16bit
  | k32bit
  deriving DecidableEq, Repr

/-- One recorded command-buffer call.  The trace of these events is the
observable behaviour of the encoder. -/
inductive Event
  | pipelineBarrier (b : BarrierVK)
  | beginRenderPass
  | endRenderPass
  | bindDescriptorSets (set : Nat)
  | bindPipeline (pipeline : Nat)
  | setStencilReference (ref : Nat)
  | bindVertexBuffers (buffer : Nat) (offset : Nat)
  | bindIndexBuffer (buffer : Nat) (offset : Nat) (ty : IndexType)
  | draw (vertex_count : Nat) (instance_count : Nat) (base_vertex : Nat)
  | drawIndexed (index_count : Nat) (instance_count : Nat)
      (base_vertex : Nat)
  deriving DecidableEq, Repr

/-- The mutable world the encoder acts on: the per-texture layout tracked
by `TextureVK` (`eUndefined` until first set), the set of image resources
whose backing is gone (layout transitions on them fail), and the ordered
list of calls recorded on the command buffer. -/
structure VKState where
  layouts : List (Nat × ImageLayout)
  dead : List Nat
  cmds : List Event
  deriving DecidableEq, Repr

/-- `TextureVK::GetLayout`: the tracked layout, `eUndefined` initially. -/
def VKState.getLayout (st : VKState) (id : Nat) : ImageLayout :=
  (st.layouts.lookup id).getD ImageLayout.eUndefined

/-- Append one recorded call to the command buffer. -/
def VKState.emit (st : VKState) (e : Event) : VKState :=
  { st with cmds := st.cmds ++ [e] }

/-- Modelled from the spec: `TextureVK::SetLayout` (texture_vk.cc is not
under src/).  Per §4.2 it records a barrier on the command buffer and
updates the tracked layout; per §4.3 step 5 it fails when the resource is
gone, in which case nothing is recorded. -/
def VKState.setLayout (st : VKState) (id : Nat) (barrier : BarrierVK) :
    Bool × VKState :=
  if id ∈ st.dead then
    (false, st)
  else
    (true, { st with
               layouts := (id, barrier.new_layout) :: st.layouts,
               cmds := st.cmds ++ [Event.pipelineBarrier barrier] })

/-- `TextureVK::SetLayoutWithoutEncoding`: update the tracked layout with
no barrier recorded. -/
def VKState.setLayoutWithoutEncoding (st : VKState) (id : Nat)
    (layout : ImageLayout) : VKState :=
  { st with layouts := (id, layout) :: st.layouts }

/-- An attachment of a render target, after `impeller::Attachment`: the
image resource, an optional resolve resource, and the requested load and
store actions.  The clear values live in `RenderTarget`-level claims none
of which inspect them, so they are not modelled. -/
structure Attachment where
  texture : Option Texture
  resolve_texture : Option Texture
  load_action : LoadAction
  store_action : StoreAction
  deriving DecidableEq, Repr

/-- Which `std::shared_ptr<Texture> Attachment::*` member a call selects:
`&Attachment::texture` or `&Attachment::resolve_texture`. -/
inductive TexSel
  | texture
  | resolve_texture
  deriving DecidableEq, Repr

/-- Dereference the selected texture member. -/
def Attachment.getTexture (a : Attachment) : TexSel → Option Texture
  | TexSel.texture => a.texture
  | TexSel.resolve_texture => a.resolve_texture

/-- The slice of `vk::AttachmentDescription` the encoder reads back. -/
structure AttachmentDescription where
  format : Nat
  samples : Nat
  loadOp : LoadAction
  storeOp : StoreAction
  initialLayout : ImageLayout
  finalLayout : ImageLayout
  deriving DecidableEq, Repr

/-- A zero-initialised `vk::AttachmentDescription` (the `return \x7b\x7d`
branch): load op `eLoad`, store op `eStore`, both layouts `eUndefined`. -/
instance : Inhabited AttachmentDescription :=
  ⟨{ format := 0, samples := 0, loadOp := LoadAction.kLoad,
     storeOp := StoreAction.kStore, initialLayout := ImageLayout.eUndefined,
     finalLayout := ImageLayout.eUndefined }⟩

/-- Modelled from the spec: the five-argument overload of
`CreateAttachmentDescription` lives in formats_vk (not under src/).  Per
§4.3 step 2 it packs the derived load/store actions into the description
and uses the tracker's current layout as the initial layout; the final
layout is the defensive general layout of §4.2 rule 1 (the subpass
performs the transition). -/
def CreateAttachmentDescriptionRaw (format : Nat) (sample_count : Nat)
    (load_action : LoadAction) (store_action : StoreAction)
    (current_layout : ImageLayout) : AttachmentDescription :=
  { format := format, samples := sample_count, loadOp := load_action,
    storeOp := store_action, initialLayout := current_layout,
    finalLayout := ImageLayout.eGeneral }

/-- `CreateAttachmentDescription` (render_pass_vk.cc:29-65): derive the
description of one attachment from the requested actions and the
texture's currently tracked layout. -/
def CreateAttachmentDescription (st : VKState) (attachment : Attachment)
    (sel : TexSel) : AttachmentDescription :=
  match attachment.getTexture sel with
  | none => default
  | some texture =>
    let desc := texture.desc
    let current_layout := st.getLayout texture.id
    let load_action := attachment.load_action
    let store_action := attachment.store_action
    let load_action :=
      if current_layout = ImageLayout.eUndefined then LoadAction.kClear
      else load_action
    let store_action :=
      if desc.storage_mode = StorageMode.kDeviceTransient then
        StoreAction.kDontCare
      else if sel = TexSel.resolve_texture then StoreAction.kStore
      else store_action
    let current_layout :=
      if current_layout ≠ ImageLayout.ePresentSrcKHR ∧
          current_layout ≠ ImageLayout.eUndefined then
        ImageLayout.eGeneral
      else current_layout
    CreateAttachmentDescriptionRaw desc.format desc.sample_count
      load_action store_action current_layout

/-- `SetTextureLayout` (render_pass_vk.cc:67-95): when the description's
initial layout is the defensive general layout, record a barrier
transitioning the texture to it; then record the final layout without
encoding (the subpass performs that transition). -/
def SetTextureLayout (attachment : Attachment)
    (attachment_desc : AttachmentDescription) (sel : TexSel)
    (st : VKState) : VKState :=
  match attachment.getTexture sel with
  | none => st
  | some texture =>
    let st :=
      if attachment_desc.initialLayout = ImageLayout.eGeneral then
        (st.setLayout texture.id
          { tex := texture.id, new_layout := ImageLayout.eGeneral }).2
      else st
    st.setLayoutWithoutEncoding texture.id attachment_desc.finalLayout

/-- A render-target size, after `impeller::ISize`. -/
structure ISize where
  width : Nat
  height : Nat
  deriving DecidableEq, Repr

/-- A render target, after `impeller::RenderTarget`: color attachments as
an ordered map from bind point to attachment (`std::map` iterates keys in
increasing order, which the `colors` list mirrors), plus optional depth
and stencil attachments. -/
structure RenderTarget where
  colors : List (Nat × Attachment)
  depth : Option Attachment
  stencil : Option Attachment
  size : ISize
  deriving DecidableEq, Repr

/-- Modelled from the spec:
`RenderTarget::GetMaxColorAttacmentBindIndex` (render_target.cc is not
under src/).  Per §4.3 step 1 it is the tracked max color bind index, the
largest key of the color-attachment map (0 when empty). -/
def RenderTarget.GetMaxColorAttacmentBindIndex (rt : RenderTarget) : Nat :=
  rt.colors.foldl (fun m p => max m p.1) 0

/-- A reference into the attachment-description array, after
`vk::AttachmentReference`.  `unused` is `kUnusedAttachmentReference`. -/
inductive AttachmentReference
  | unused
  | ref (attachment : Nat) (layout : ImageLayout)
  deriving DecidableEq, Repr

/-- The values `RenderPassVK::CreateVKRenderPass` builds up while walking
the render target: the description array, the color/resolve reference
arrays, the merged depth/stencil reference, and the threaded state.
`attachment_textures` instruments the build, recording which texture each
appended description was derived from, in order. -/
structure RenderPassBuild where
  attachments : List AttachmentDescription
  attachment_textures : List (Option Texture)
  color_refs : List AttachmentReference
  resolve_refs : List AttachmentReference
  depth_stencil_ref : AttachmentReference
  state : VKState
  deriving Repr

/-- Append one attachment description (and its layout side effects) for
the selected texture member of `att`, as the loop bodies of
`CreateVKRenderPass` do. -/
def appendAttachment (b : RenderPassBuild) (att : Attachment)
    (sel : TexSel) : RenderPassBuild :=
  let desc := CreateAttachmentDescription b.state att sel
  { b with
      attachments := b.attachments ++ [desc],
      attachment_textures := b.attachment_textures ++ [att.getTexture sel],
      state := SetTextureLayout att desc sel b.state }

/-- One iteration of the color loop of `CreateVKRenderPass`
(render_pass_vk.cc:119-135): point `color_refs[bind_point]` at the next
description slot and append the color description; if a resolve texture
is present, do the same for `resolve_refs` immediately after. -/
def colorStep (b : RenderPassBuild) (bind_point : Nat)
    (color : Attachment) : RenderPassBuild :=
  let b :=
    { b with
        color_refs := b.color_refs.set bind_point
          (AttachmentReference.ref b.attachments.length
            ImageLayout.eColorAttachmentOptimal) }
  let b := appendAttachment b color TexSel.texture
  if color.resolve_texture.isSome then
    let b :=
      { b with
          resolve_refs := b.resolve_refs.set bind_point
            (AttachmentReference.ref b.attachments.length
              ImageLayout.eGeneral) }
    appendAttachment b color TexSel.resolve_texture
  else b

/-- The color loop of `CreateVKRenderPass`: one `colorStep` per populated
bind point, in increasing bind-point order. -/
def colorLoop : List (Nat × Attachment) → RenderPassBuild → RenderPassBuild
  | [], b => b
  | (bind_point, color) :: rest, b =>
    colorLoop rest (colorStep b bind_point color)

/-- The starting value of the `CreateVKRenderPass` walk
(render_pass_vk.cc:100-117): empty description list, both reference
arrays sized to max bind index + 1 and filled with the unused
reference. -/
def initialBuild (rt : RenderTarget) (st : VKState) : RenderPassBuild :=
  { attachments := [], attachment_textures := [],
    color_refs := List.replicate (rt.GetMaxColorAttacmentBindIndex + 1)
      AttachmentReference.unused,
    resolve_refs := List.replicate (rt.GetMaxColorAttacmentBindIndex + 1)
      AttachmentReference.unused,
    depth_stencil_ref := AttachmentReference.unused, state := st }

/-- `RenderPassVK::CreateVKRenderPass` (render_pass_vk.cc:97-177), up to
the backend call that turns the built description into a handle: run the
color loop, then append depth and stencil, each overwriting the single
depth/stencil reference. -/
def CreateVKRenderPassBuild (rt : RenderTarget) (st : VKState) :
    RenderPassBuild :=
  let b := colorLoop rt.colors (initialBuild rt st)
  let b :=
    match rt.depth with
    | none => b
    | some depth =>
      let b :=
        { b with
            depth_stencil_ref := AttachmentReference.ref b.attachments.length
              ImageLayout.eDepthStencilAttachmentOptimal }
      appendAttachment b depth TexSel.texture
  match rt.stencil with
  | none => b
  | some stencil =>
    let b :=
      { b with
          depth_stencil_ref := AttachmentReference.ref b.attachments.length
            ImageLayout.eDepthStencilAttachmentOptimal }
    appendAttachment b stencil TexSel.texture

/-- The color part of the framebuffer attachment list
(render_pass_vk.cc:255-263): each color texture's image view, each
immediately followed by its resolve texture's view when present.  An
image view is identified by the texture it views. -/
def fbColorViews : List (Nat × Attachment) → List (Option Texture)
  | [] => []
  | (_, color) :: rest =>
    (color.texture ::
        (if color.resolve_texture.isSome then [color.resolve_texture]
         else [])) ++
      fbColorViews rest

/-- The attachment list `RenderPassVK::CreateVKFramebuffer`
(render_pass_vk.cc:238-283) hands to the backend: color views in map
order (resolve views interleaved), then depth, then stencil. -/
def CreateVKFramebufferAttachments (rt : RenderTarget) :
    List (Option Texture) :=
  fbColorViews rt.colors ++
    (match rt.depth with
     | some depth => [depth.texture]
     | none => []) ++
    (match rt.stencil with
     | some stencil => [stencil.texture]
     | none => [])

/-- Modelled from the spec: an opaque buffer resource (§6 buffer views).
`GetDeviceBuffer` resolution happens in the allocator outside src/; its
outcome is recorded as `device_buffer` — `none` when the device buffer
cannot be acquired, otherwise the opaque handle `bindBuffer` calls use. -/
structure Buffer where
  device_buffer : Option Nat
  deriving DecidableEq, Repr

/-- A buffer view, after `impeller::BufferView`: an optional buffer plus
a byte offset.  The view converts to `false` exactly when `buffer` is
null. -/
structure BufferView where
  buffer : Option Buffer
  offset : Nat
  deriving DecidableEq, Repr

/-- A vertex buffer, after `impeller::VertexBuffer`. -/
structure VertexBuffer where
  vertex_buffer : BufferView
  index_buffer : BufferView
  vertex_count : Nat
  index_type : IndexType
  deriving DecidableEq, Repr

/-- Per-stage resource bindings, after `impeller::Bindings`: the sampled
images, keyed by binding index.  Buffer bindings are consumed only by the
descriptor-set writer outside src/ and are not modelled. -/
structure Bindings where
  sampled_images : List (Nat × Texture)
  deriving DecidableEq, Repr

/-- A draw command, after `impeller::Command`.  The viewport, scissor and
debug label fields are recorded verbatim on the command buffer and read
by no claim, so they are not modelled. -/
structure Command where
  pipeline : Nat
  vertex_bindings : Bindings
  fragment_bindings : Bindings
  vertex_buffer : VertexBuffer
  stencil_reference : Nat
  base_vertex : Nat
  instance_count : Nat
  deriving DecidableEq, Repr

/-- The outcomes of the collaborators `OnEncodeCommands` consults, each
outside src/: whether the weak command buffer is still alive, whether its
encoder exists, whether the backend accepted the render-pass and
framebuffer creation, whether `CommandEncoderVK::Track` succeeds, and the
descriptor sets `AllocateAndBindDescriptorSets` returned (`none` on
allocation failure). -/
structure EncCtx where
  cb_alive : Bool
  encoder_ok : Bool
  pass_ok : Bool
  fb_ok : Bool
  track_ok : Bool
  desc_sets : Option (List Nat)
  deriving DecidableEq, Repr

/-- The inner loop of `UpdateBindingLayouts` (render_pass_vk.cc:300-305):
transition each sampled image to the shader-read-only layout, stopping at
the first failed transition. -/
def updateImageLayouts : List (Nat × Texture) → VKState → Bool × VKState
  | [], st => (true, st)
  | (_, texture) :: rest, st =>
    let r := st.setLayout texture.id
      { tex := texture.id, new_layout := ImageLayout.eShaderReadOnlyOptimal }
    if r.1 then updateImageLayouts rest r.2 else (false, r.2)

/-- `UpdateBindingLayouts` on one command (render_pass_vk.cc:308-312):
vertex bindings first, then fragment bindings, short-circuiting. -/
def updateCommandLayouts (command : Command) (st : VKState) :
    Bool × VKState :=
  let r := updateImageLayouts command.vertex_bindings.sampled_images st
  if r.1 then updateImageLayouts command.fragment_bindings.sampled_images r.2
  else r

/-- `UpdateBindingLayouts` on the command list
(render_pass_vk.cc:314-322). -/
def UpdateBindingLayouts : List Command → VKState → Bool × VKState
  | [], st => (true, st)
  | command :: rest, st =>
    let r := updateCommandLayouts command st
    if r.1 then UpdateBindingLayouts rest r.2 else r

/-- `EncodeCommand` (render_pass_vk.cc:348-450): bind the descriptor set,
pipeline and stencil reference, then resolve and bind the vertex buffer
(failing on an empty view, an unresolvable device buffer, or a tracking
failure), then either bind the index buffer and draw indexed, or draw. -/
def EncodeCommand (ctx : EncCtx) (command : Command) (vk_desc_set : Nat)
    (st : VKState) : Bool × VKState :=
  let st := st.emit (Event.bindDescriptorSets vk_desc_set)
  let st := st.emit (Event.bindPipeline command.pipeline)
  let st := st.emit (Event.setStencilReference command.stencil_reference)
  match command.vertex_buffer.vertex_buffer.buffer with
  | none => (false, st)
  | some buf =>
    match buf.device_buffer with
    | none => (false, st)
    | some vertex_buffer =>
      if !ctx.track_ok then (false, st)
      else
        let st := st.emit (Event.bindVertexBuffers vertex_buffer
          command.vertex_buffer.vertex_buffer.offset)
        if command.vertex_buffer.index_type ≠ IndexType.kNone then
          match command.vertex_buffer.index_buffer.buffer with
          | none => (false, st)
          | some ibuf =>
            match ibuf.device_buffer with
            | none => (false, st)
            | some index_buffer =>
              if !ctx.track_ok then (false, st)
              else
                let st := st.emit (Event.bindIndexBuffer index_buffer
                  command.vertex_buffer.index_buffer.offset
                  command.vertex_buffer.index_type)
                let st := st.emit (Event.drawIndexed
                  command.vertex_buffer.vertex_count command.instance_count
                  command.base_vertex)
                (true, st)
        else
          let st := st.emit (Event.draw command.vertex_buffer.vertex_count
            command.instance_count command.base_vertex)
          (true, st)

/-- The command loop of `OnEncodeCommands` (render_pass_vk.cc:533-540):
encode each command with the next descriptor set, stopping at the first
failure. -/
def encodeLoop (ctx : EncCtx) (desc_sets : List Nat) :
    List Command → Nat → VKState → Bool × VKState
  | [], _, st => (true, st)
  | command :: rest, desc_index, st =>
    let r := EncodeCommand ctx command (desc_sets.getD desc_index 0) st
    if r.1 then encodeLoop ctx desc_sets rest (desc_index + 1) r.2 else r

/-- `RenderPassVK::OnEncodeCommands` (render_pass_vk.cc:452-544): check
validity and the command buffer, transition all sampled images, build the
render pass (with its layout side effects) and framebuffer, allocate
descriptor sets, then begin the pass, run the command loop, and end the
pass (the scoped closure ends it even when a command fails). -/
def OnEncodeCommands (ctx : EncCtx) (rt : RenderTarget)
    (commands : List Command) (is_valid : Bool) (st : VKState) :
    Bool × VKState :=
  if !is_valid then (false, st)
  else if !ctx.cb_alive then (false, st)
  else if !ctx.encoder_ok then (false, st)
  else
    let r := UpdateBindingLayouts commands st
    if !r.1 then (false, r.2)
    else
      let st := (CreateVKRenderPassBuild rt r.2).state
      if !ctx.pass_ok then (false, st)
      else if !ctx.fb_ok then (false, st)
      else if !ctx.track_ok then (false, st)
      else
        match ctx.desc_sets with
        | none => (false, st)
        | some desc_sets =>
          let st := st.emit Event.beginRenderPass
          let r := encodeLoop ctx desc_sets commands 0 st
          (r.1, r.2.emit Event.endRenderPass)

/-- Rendering modes, after `Entity::RenderingMode` as §3 lists them. -/
inductive RenderingMode
  | kDirect
  | kOnscreenSubpass
  | kOffscreenSubpass
  deriving DecidableEq, Repr

/-- A scalar.  No claim computes with scalar values, so IEEE float
arithmetic is not modelled; rationals stand in for the carried values. -/
abbrev Scalar : Type := Rat

/-- A point, after `impeller::Point`. -/
structure Point where
  x : Scalar
  y : Scalar
  deriving DecidableEq, Repr

/-- A size, after `impeller::Size`. -/
structure RSize where
  width : Scalar
  height : Scalar
  deriving DecidableEq, Repr

/-- An axis-aligned rectangle, after `impeller::Rect`. -/
structure Rect where
  origin : Point
  size : RSize
  deriving DecidableEq, Repr

/-- A 4x4 matrix, after `impeller::Matrix` (sixteen scalars). -/
structure Matrix where
  m : List Scalar
  deriving DecidableEq, Repr

/-- The identity transform a fresh canvas starts with. -/
def Matrix.identity : Matrix :=
  { m := [1, 0, 0, 0, 0, 1, 0, 0, 0, 0, 1, 0, 0, 0, 0, 1] }

/-- One stack frame, after `impeller::CanvasStackEntry`
(canvas.h:30-37). -/
structure CanvasStackEntry where
  transform : Matrix
  cull_rect : Option Rect
  clip_depth : Nat
  rendering_mode : RenderingMode
  contains_clips : Bool
  deriving DecidableEq, Repr

/-- The save/restore state of a canvas, after `Canvas::transform_stack_`
(canvas.h:164; a deque whose back is the head of this list).  Only the
stack is modelled: the entity-pass tree the drawing operations append to
is read by no claim. -/
structure Canvas where
  transform_stack : List CanvasStackEntry
  deriving DecidableEq, Repr

/-- The root frame pushed at construction. -/
def initialStackEntry : CanvasStackEntry :=
  { transform := Matrix.identity, cull_rect := none, clip_depth := 0,
    rendering_mode := RenderingMode.kDirect, contains_clips := false }

/-- A freshly constructed canvas: one implicit root scope (§4.1). -/
def Canvas.fresh : Canvas :=
  { transform_stack := [initialStackEntry] }

/-- `Canvas::GetSaveCount`: the number of stack frames. -/
def Canvas.GetSaveCount (c : Canvas) : Nat :=
  c.transform_stack.length

/-- Modelled from the spec: `Canvas::Save` (canvas.cc is not under src/).
Per §4.1 it pushes a copy of the top entry — transform and cull_rect
inherited, the per-scope clip bookkeeping reset. -/
def Canvas.Save (c : Canvas) : Canvas :=
  let top := c.transform_stack.headD initialStackEntry
  { transform_stack := { top with contains_clips := false } ::
      c.transform_stack }

/-- Modelled from the spec: `Canvas::Restore` (canvas.cc is not under
src/).  Per §4.1 and §8 property 1 it pops the top entry; called with no
matching `Save` (depth already 1) it returns false and the stack is left
unchanged. -/
def Canvas.Restore (c : Canvas) : Bool × Canvas :=
  if c.transform_stack.length ≤ 1 then (false, c)
  else (true, { transform_stack := c.transform_stack.tail })

/-- One element of a save/restore call sequence. -/
inductive SROp
  | save
  | restore
  deriving DecidableEq, Repr

/-- Run a save/restore sequence, counting the restores that returned
true. -/
def applyOps : List SROp → Canvas → Canvas × Nat
  | [], c => (c, 0)
  | SROp.save :: rest, c => applyOps rest c.Save
  | SROp.restore :: rest, c =>
    let r := c.Restore
    let out := applyOps rest r.2
    (out.1, out.2 + if r.1 then 1 else 0)

/-- The number of `Save` calls in a sequence. -/
def countSaves : List SROp → Nat
  | [] => 0
  | SROp.save :: tl => countSaves tl + 1
  | SROp.restore :: tl => countSaves tl

/-! Concrete fixtures used by counterexamples and witnesses. -/

/-- A state with no tracked layouts, no dead resources and an empty
command buffer. -/
def stEmpty : VKState := { layouts := [], dead := [], cmds := [] }

/-- A single-sampled device-transient texture. -/
def texTransient : Texture :=
  { id := 1,
    desc := { storage_mode := StorageMode.kDeviceTransient, format := 0,
              sample_count := 1 } }

/-- A multisampled device-private texture. -/
def texMsaa : Texture :=
  { id := 0,
    desc := { storage_mode := StorageMode.kDevicePrivate, format := 0,
              sample_count := 4 } }

/-- A single-sampled device-private texture. -/
def texPlain : Texture :=
  { id := 2,
    desc := { storage_mode := StorageMode.kDevicePrivate, format := 0,
              sample_count := 1 } }

/-- A color attachment whose resolve texture is device-transient. -/
def attTransientResolve : Attachment :=
  { texture := some texMsaa, resolve_texture := some texTransient,
    load_action := LoadAction.kLoad, store_action := StoreAction.kDontCare }

/-- A color attachment whose resolve texture is device-private. -/
def attPlainResolve : Attachment :=
  { texture := some texMsaa, resolve_texture := some texPlain,
    load_action := LoadAction.kLoad, store_action := StoreAction.kDontCare }

/-- C2 as stated is false: the store clamps are an if/else-if chain in
which device-transient storage takes precedence, so a device-transient
resolve texture is described with a don't-care store action even though
the claim demands `store` for every described resolve texture. -/
theorem store_clamp_counterexample :
    attTransientResolve.getTexture TexSel.resolve_texture =
        some texTransient ∧
      (CreateAttachmentDescription stEmpty attTransientResolve
            TexSel.resolve_texture).storeOp ≠ StoreAction.kStore := by
  decide

/-- C2 (amended): for every attachment whose selected texture is present,
the description's store action is don't-care whenever that texture's
storage mode is device-transient, and is store whenever the described
texture is the resolve texture and its storage mode is not
device-transient; both clamps ignore the requested store action. -/
theorem store_clamp_amended (st : VKState) (a : Attachment) (sel : TexSel)
    (t : Texture) (h : a.getTexture sel = some t) :
    (t.desc.storage_mode = StorageMode.kDeviceTransient →
        (CreateAttachmentDescription st a sel).storeOp =
          StoreAction.kDontCare) ∧
      (sel = TexSel.resolve_texture →
        t.desc.storage_mode ≠ StorageMode.kDeviceTransient →
        (CreateAttachmentDescription st a sel).storeOp =
          StoreAction.kStore) := by
  constructor
  · intro htrans
    simp [CreateAttachmentDescription, h, htrans,
      CreateAttachmentDescriptionRaw]
  · intro hsel htrans
    subst hsel
    simp [CreateAttachmentDescription, h, htrans,
      CreateAttachmentDescriptionRaw]

/-- Witness: both store clamps evaluated on concrete attachments. -/
theorem store_clamp_amended_witness :
    (CreateAttachmentDescription stEmpty attTransientResolve
          TexSel.resolve_texture).storeOp = StoreAction.kDontCare ∧
      (CreateAttachmentDescription stEmpty attPlainResolve
          TexSel.resolve_texture).storeOp = StoreAction.kStore :=
  ⟨(store_clamp_amended stEmpty attTransientResolve TexSel.resolve_texture
        texTransient (by decide)).1 (by decide),
    (store_clamp_amended stEmpty attPlainResolve TexSel.resolve_texture
        texPlain (by decide)).2 rfl (by decide)⟩

/-- C3: an attachment whose texture is tracked in the undefined layout is
described with a clear load action, whatever was requested. -/
theorem undefined_layout_forces_clear (st : VKState) (a : Attachment)
    (sel : TexSel) (t : Texture) (h : a.getTexture sel = some t)
    (hu : st.getLayout t.id = ImageLayout.eUndefined) :
    (CreateAttachmentDescription st a sel).loadOp = LoadAction.kClear := by
  simp [CreateAttachmentDescription, h, hu, CreateAttachmentDescriptionRaw]

/-- Witness: a load-action-preserving request on an untracked (hence
undefined-layout) texture is still described as clear. -/
theorem undefined_layout_forces_clear_witness :
    (CreateAttachmentDescription stEmpty attPlainResolve
        TexSel.texture).loadOp = LoadAction.kClear :=
  undefined_layout_forces_clear stEmpty attPlainResolve TexSel.texture
    texMsaa (by decide) (by decide)

/-- C4: describing an attachment whose tracked layout is neither the
undefined sentinel nor the present-source layout forces the description's
initial layout to the general layout, and `SetTextureLayout` records
exactly one barrier transitioning that texture to the general layout; an
attachment tracked as undefined or present-source gets no such
barrier. -/
theorem defensive_general_barrier (st : VKState) (a : Attachment)
    (sel : TexSel) (t : Texture) (h : a.getTexture sel = some t)
    (halive : t.id ∉ st.dead) :
    ((st.getLayout t.id ≠ ImageLayout.eUndefined ∧
        st.getLayout t.id ≠ ImageLayout.ePresentSrcKHR) →
      (CreateAttachmentDescription st a sel).initialLayout =
          ImageLayout.eGeneral ∧
        (SetTextureLayout a (CreateAttachmentDescription st a sel) sel
              st).cmds =
          st.cmds ++
            [Event.pipelineBarrier
              { tex := t.id, new_layout := ImageLayout.eGeneral }]) ∧
      ((st.getLayout t.id = ImageLayout.eUndefined ∨
          st.getLayout t.id = ImageLayout.ePresentSrcKHR) →
        (SetTextureLayout a (CreateAttachmentDescription st a sel) sel
              st).cmds = st.cmds) := by
  constructor
  · rintro ⟨hu, hp⟩
    have hinit : (CreateAttachmentDescription st a sel).initialLayout =
        ImageLayout.eGeneral := by
      simp [CreateAttachmentDescription, h, CreateAttachmentDescriptionRaw,
        hu, hp]
    refine ⟨hinit, ?_⟩
    simp [SetTextureLayout, h, hinit, VKState.setLayout, halive,
      VKState.setLayoutWithoutEncoding]
  · intro hcase
    have hinit : (CreateAttachmentDescription st a sel).initialLayout =
        st.getLayout t.id := by
      rcases hcase with hu | hp
      · simp [CreateAttachmentDescription, h, CreateAttachmentDescriptionRaw,
          hu]
      · simp [CreateAttachmentDescription, h, CreateAttachmentDescriptionRaw,
          hp]
    have hne : (CreateAttachmentDescription st a sel).initialLayout ≠
        ImageLayout.eGeneral := by
      rw [hinit]
      rcases hcase with hu | hp
      · rw [hu]; intro hc; cases hc
      · rw [hp]; intro hc; cases hc
    simp [SetTextureLayout, h, hne, VKState.setLayoutWithoutEncoding]

/-- A state tracking `texPlain` in the color-attachment layout. -/
def stColorTracked : VKState :=
  { layouts := [(2, ImageLayout.eColorAttachmentOptimal)], dead := [],
    cmds := [] }

/-- A plain color attachment around `texPlain` with no resolve. -/
def attPlain : Attachment :=
  { texture := some texPlain, resolve_texture := none,
    load_action := LoadAction.kLoad, store_action := StoreAction.kStore }

/-- Witness: a texture tracked in the color-attachment layout gets the
defensive barrier; an untracked texture gets none. -/
theorem defensive_general_barrier_witness :
    ((CreateAttachmentDescription stColorTracked attPlain
          TexSel.texture).initialLayout = ImageLayout.eGeneral ∧
      (SetTextureLayout attPlain
            (CreateAttachmentDescription stColorTracked attPlain
              TexSel.texture) TexSel.texture stColorTracked).cmds =
        stColorTracked.cmds ++
          [Event.pipelineBarrier
            { tex := texPlain.id, new_layout := ImageLayout.eGeneral }]) ∧
      (SetTextureLayout attPlain
            (CreateAttachmentDescription stEmpty attPlain TexSel.texture)
            TexSel.texture stEmpty).cmds = stEmpty.cmds :=
  ⟨(defensive_general_barrier stColorTracked attPlain TexSel.texture
        texPlain (by decide) (by decide)).1 (by decide),
    (defensive_general_barrier stEmpty attPlain TexSel.texture texPlain
        (by decide) (by decide)).2 (by decide)⟩

/-! Structural lemmas about the render-pass build. -/

theorem appendAttachment_color_refs (b : RenderPassBuild)
    (att : Attachment) (sel : TexSel) :
    (appendAttachment b att sel).color_refs = b.color_refs := rfl

theorem appendAttachment_textures (b : RenderPassBuild) (att : Attachment)
    (sel : TexSel) :
    (appendAttachment b att sel).attachment_textures =
      b.attachment_textures ++ [att.getTexture sel] := rfl

theorem appendAttachment_depth_stencil_ref (b : RenderPassBuild)
    (att : Attachment) (sel : TexSel) :
    (appendAttachment b att sel).depth_stencil_ref =
      b.depth_stencil_ref := rfl

theorem appendAttachment_attachments_length (b : RenderPassBuild)
    (att : Attachment) (sel : TexSel) :
    (appendAttachment b att sel).attachments.length =
      b.attachments.length + 1 := by
  simp [appendAttachment]

theorem colorStep_color_refs (b : RenderPassBuild) (k : Nat)
    (c : Attachment) :
    (colorStep b k c).color_refs =
      b.color_refs.set k (AttachmentReference.ref b.attachments.length
        ImageLayout.eColorAttachmentOptimal) := by
  by_cases hres : c.resolve_texture.isSome <;>
    simp [colorStep, hres, appendAttachment]

theorem colorStep_textures (b : RenderPassBuild) (k : Nat)
    (c : Attachment) :
    (colorStep b k c).attachment_textures =
      b.attachment_textures ++
        (c.texture ::
          (if c.resolve_texture.isSome then [c.resolve_texture]
           else [])) := by
  by_cases hres : c.resolve_texture.isSome <;>
    simp [colorStep, hres, appendAttachment, Attachment.getTexture]

theorem colorStep_attachments_length (b : RenderPassBuild) (k : Nat)
    (c : Attachment) :
    (colorStep b k c).attachments.length =
      b.attachments.length +
        (c.texture ::
            (if c.resolve_texture.isSome then [c.resolve_texture]
             else [])).length := by
  by_cases hres : c.resolve_texture.isSome <;>
    simp [colorStep, hres, appendAttachment]

theorem colorLoop_textures (cs : List (Nat × Attachment)) :
    ∀ b : RenderPassBuild,
      (colorLoop cs b).attachment_textures =
        b.attachment_textures ++ fbColorViews cs := by
  induction cs with
  | nil => intro b; simp [colorLoop, fbColorViews]
  | cons hd tl ih =>
    intro b
    obtain ⟨k, c⟩ := hd
    simp [colorLoop, ih, colorStep_textures, fbColorViews]

theorem colorLoop_attachments_length (cs : List (Nat × Attachment)) :
    ∀ b : RenderPassBuild,
      (colorLoop cs b).attachments.length =
        b.attachments.length + (fbColorViews cs).length := by
  induction cs with
  | nil => intro b; simp [colorLoop, fbColorViews]
  | cons hd tl ih =>
    intro b
    obtain ⟨k, c⟩ := hd
    simp [colorLoop, ih, colorStep_attachments_length, fbColorViews]
    omega

theorem colorLoop_color_refs_length (cs : List (Nat × Attachment)) :
    ∀ b : RenderPassBuild,
      (colorLoop cs b).color_refs.length = b.color_refs.length := by
  induction cs with
  | nil => intro b; simp [colorLoop]
  | cons hd tl ih =>
    intro b
    obtain ⟨k, c⟩ := hd
    simp [colorLoop, ih, colorStep_color_refs]

theorem colorLoop_color_refs_not_mem (cs : List (Nat × Attachment)) :
    ∀ (b : RenderPassBuild) (i : Nat), i ∉ cs.map Prod.fst →
      (colorLoop cs b).color_refs[i]? = b.color_refs[i]? := by
  induction cs with
  | nil => intro b i _; simp [colorLoop]
  | cons hd tl ih =>
    intro b i hi
    obtain ⟨k, c⟩ := hd
    simp only [List.map_cons, List.mem_cons, not_or] at hi
    have hki : k ≠ i := fun hc => hi.1 hc.symm
    simp [colorLoop, ih _ _ hi.2, colorStep_color_refs,
      List.getElem?_set_ne hki]

/-- C1: the framebuffer attachment list built by `CreateVKFramebuffer`
has the same length as the description list built by
`CreateVKRenderPass`, and position by position each description was
derived from exactly the texture whose image view the framebuffer holds
there. -/
theorem framebuffer_matches_render_pass_attachments (rt : RenderTarget)
    (st : VKState) :
    (CreateVKRenderPassBuild rt st).attachment_textures =
        CreateVKFramebufferAttachments rt ∧
      (CreateVKRenderPassBuild rt st).attachments.length =
        (CreateVKFramebufferAttachments rt).length := by
  cases hdep : rt.depth <;> cases hst : rt.stencil <;>
    simp [CreateVKRenderPassBuild, CreateVKFramebufferAttachments, hdep,
      hst, colorLoop_textures, colorLoop_attachments_length,
      appendAttachment_textures, appendAttachment_attachments_length,
      Attachment.getTexture, initialBuild]

theorem colorLoop_refs_mem (cs : List (Nat × Attachment)) :
    ∀ b : RenderPassBuild,
      (cs.map Prod.fst).Pairwise (· ≠ ·) →
      b.attachment_textures.length = b.attachments.length →
      ∀ k att, (k, att) ∈ cs → k < b.color_refs.length →
      ∃ d, (colorLoop cs b).color_refs[k]? =
          some (AttachmentReference.ref d
            ImageLayout.eColorAttachmentOptimal) ∧
        (colorLoop cs b).attachment_textures[d]? = some att.texture := by
  induction cs with
  | nil =>
    intro b _ _ k att hmem
    cases hmem
  | cons hd tl ih =>
    intro b hpw hlen k att hmem hk
    obtain ⟨k0, a0⟩ := hd
    simp only [List.map_cons, List.pairwise_cons] at hpw
    simp only [colorLoop]
    have hstep_len : (colorStep b k0 a0).attachment_textures.length =
        (colorStep b k0 a0).attachments.length := by
      rw [colorStep_textures, colorStep_attachments_length]
      simp [hlen]
    rcases List.mem_cons.mp hmem with heq | hmem'
    · cases heq
      refine ⟨b.attachments.length, ?_, ?_⟩
      · have hnot : k ∉ tl.map Prod.fst := by
          intro hc
          exact hpw.1 k hc rfl
        rw [colorLoop_color_refs_not_mem tl _ k hnot, colorStep_color_refs,
          List.getElem?_set_eq_of_lt _ hk]
      · rw [colorLoop_textures, List.getElem?_append_left, colorStep_textures]
        · rw [List.getElem?_append_right (by omega)]
          simp [hlen]
        · rw [colorStep_textures]
          simp only [List.length_append, List.length_cons]
          omega
    · have hklt : k < (colorStep b k0 a0).color_refs.length := by
        rw [colorStep_color_refs]
        simpa using hk
      exact ih (colorStep b k0 a0) hpw.2 hstep_len k att hmem' hklt

theorem le_foldl_max (cs : List (Nat × Attachment)) :
    ∀ a : Nat, a ≤ cs.foldl (fun m p => max m p.1) a ∧
      ∀ p ∈ cs, p.1 ≤ cs.foldl (fun m p => max m p.1) a := by
  induction cs with
  | nil => intro a; simp
  | cons hd tl ih =>
    intro a
    rw [List.foldl_cons]
    refine ⟨le_trans (le_max_left a hd.1) (ih (max a hd.1)).1, ?_⟩
    intro p hp
    rcases List.mem_cons.mp hp with heq | hmem
    · subst heq
      exact le_trans (le_max_right a p.1) (ih (max a p.1)).1
    · exact (ih (max a hd.1)).2 p hmem

/-- Every populated bind point is within the sized reference arrays. -/
theorem mem_le_maxBind (rt : RenderTarget) (k : Nat) (att : Attachment)
    (h : (k, att) ∈ rt.colors) :
    k ≤ rt.GetMaxColorAttacmentBindIndex :=
  (le_foldl_max rt.colors 0).2 (k, att) h

/-- C5: the color reference array has length max bind index + 1; slots
not in the color-attachment map keep the unused reference; each populated
slot holds, at its own index, a reference to the description derived from
its own texture. -/
theorem color_refs_preserve_slots (rt : RenderTarget) (st : VKState)
    (hkeys : (rt.colors.map Prod.fst).Pairwise (· ≠ ·)) :
    (CreateVKRenderPassBuild rt st).color_refs.length =
        rt.GetMaxColorAttacmentBindIndex + 1 ∧
      (∀ i, i ∉ rt.colors.map Prod.fst →
        i < rt.GetMaxColorAttacmentBindIndex + 1 →
        (CreateVKRenderPassBuild rt st).color_refs[i]? =
          some AttachmentReference.unused) ∧
      (∀ k att, (k, att) ∈ rt.colors →
        ∃ d, (CreateVKRenderPassBuild rt st).color_refs[k]? =
            some (AttachmentReference.ref d
              ImageLayout.eColorAttachmentOptimal) ∧
          (CreateVKRenderPassBuild rt st).attachment_textures[d]? =
            some att.texture) := by
  have hrefs' : (CreateVKRenderPassBuild rt st).color_refs =
      (colorLoop rt.colors (initialBuild rt st)).color_refs := by
    cases hdep : rt.depth <;> cases hst : rt.stencil <;>
      simp [CreateVKRenderPassBuild, hdep, hst, appendAttachment_color_refs]
  refine ⟨?_, ?_, ?_⟩
  · rw [hrefs', colorLoop_color_refs_length]
    simp [initialBuild]
  · intro i hi hilt
    rw [hrefs', colorLoop_color_refs_not_mem _ _ _ hi]
    simp [initialBuild, hilt]
  · intro k att hmem
    have hk : k < (initialBuild rt st).color_refs.length := by
      simp [initialBuild]
      exact Nat.lt_succ_of_le (mem_le_maxBind rt k att hmem)
    obtain ⟨d, hset, htexd⟩ := colorLoop_refs_mem rt.colors
      (initialBuild rt st) hkeys rfl k att hmem hk
    refine ⟨d, ?_, ?_⟩
    · rw [hrefs']
      exact hset
    · have htexall : (CreateVKRenderPassBuild rt st).attachment_textures =
          (colorLoop rt.colors (initialBuild rt st)).attachment_textures ++
            ((match rt.depth with
              | some depth => [depth.texture]
              | none => []) ++
             (match rt.stencil with
              | some stencil => [stencil.texture]
              | none => [])) := by
        cases hdep : rt.depth <;> cases hst : rt.stencil <;>
          simp [CreateVKRenderPassBuild, hdep, hst,
            appendAttachment_textures, Attachment.getTexture]
      rw [htexall, List.getElem?_append_left]
      · exact htexd
      · obtain ⟨hlt, -⟩ := List.getElem?_eq_some.mp htexd
        exact hlt

/-- A render target with a gap: color attachments at slots 0 and 2. -/
def rtGap : RenderTarget :=
  { colors := [(0, attPlain), (2, attPlainResolve)], depth := none,
    stencil := none, size := { width := 4, height := 4 } }

/-- Witness: the slot-preservation contract evaluated on a render target
whose color slots are 0 and 2 (slot 1 is a gap). -/
theorem color_refs_preserve_slots_witness :
    (CreateVKRenderPassBuild rtGap stEmpty).color_refs.length =
        rtGap.GetMaxColorAttacmentBindIndex + 1 ∧
      (∀ i, i ∉ rtGap.colors.map Prod.fst →
        i < rtGap.GetMaxColorAttacmentBindIndex + 1 →
        (CreateVKRenderPassBuild rtGap stEmpty).color_refs[i]? =
          some AttachmentReference.unused) ∧
      (∀ k att, (k, att) ∈ rtGap.colors →
        ∃ d, (CreateVKRenderPassBuild rtGap stEmpty).color_refs[k]? =
            some (AttachmentReference.ref d
              ImageLayout.eColorAttachmentOptimal) ∧
          (CreateVKRenderPassBuild rtGap stEmpty).attachment_textures[d]? =
            some att.texture) :=
  color_refs_preserve_slots rtGap stEmpty (by decide)

/-- C10: with both a depth and a stencil attachment present, both
descriptions are appended (two slots past the color descriptions), and
the single subpass depth/stencil reference ends up pointing at the
stencil description — the stencil write overwrites the depth
reference. -/
theorem stencil_overwrites_depth_ref (rt : RenderTarget) (st : VKState)
    (d s : Attachment) (hd : rt.depth = some d) (hs : rt.stencil = some s) :
    (CreateVKRenderPassBuild rt st).attachments.length =
        (fbColorViews rt.colors).length + 2 ∧
      (CreateVKRenderPassBuild rt st).depth_stencil_ref =
        AttachmentReference.ref ((fbColorViews rt.colors).length + 1)
          ImageLayout.eDepthStencilAttachmentOptimal ∧
      (CreateVKRenderPassBuild rt
          st).attachment_textures[(fbColorViews rt.colors).length]? =
        some d.texture ∧
      (CreateVKRenderPassBuild rt
          st).attachment_textures[(fbColorViews rt.colors).length + 1]? =
        some s.texture := by
  have hL : (colorLoop rt.colors (initialBuild rt st)).attachments.length =
      (fbColorViews rt.colors).length := by
    rw [colorLoop_attachments_length]
    simp [initialBuild]
  have hT : (colorLoop rt.colors
      (initialBuild rt st)).attachment_textures = fbColorViews rt.colors := by
    rw [colorLoop_textures]
    simp [initialBuild]
  simp only [CreateVKRenderPassBuild, hd, hs]
  refine ⟨?_, ?_, ?_, ?_⟩
  · simp [appendAttachment_attachments_length, hL]
  · simp [appendAttachment_depth_stencil_ref,
      appendAttachment_attachments_length, hL]
  · simp only [appendAttachment_textures, hT, Attachment.getTexture]
    rw [List.append_assoc]
    rw [List.getElem?_append_right (le_refl _)]
    simp
  · simp only [appendAttachment_textures, hT, Attachment.getTexture]
    rw [List.append_assoc]
    rw [List.getElem?_append_right (by omega)]
    simp

/-- A depth attachment around `texMsaa`. -/
def attDepth : Attachment :=
  { texture := some texMsaa, resolve_texture := none,
    load_action := LoadAction.kClear, store_action := StoreAction.kDontCare }

/-- A stencil attachment around `texTransient`. -/
def attStencil : Attachment :=
  { texture := some texTransient, resolve_texture := none,
    load_action := LoadAction.kClear, store_action := StoreAction.kDontCare }

/-- A render target with one color attachment plus depth and stencil. -/
def rtDS : RenderTarget :=
  { colors := [(0, attPlain)], depth := some attDepth,
    stencil := some attStencil, size := { width := 4, height := 4 } }

/-- Witness: the merged depth/stencil reference on a concrete target with
one color, one depth and one stencil attachment. -/
theorem stencil_overwrites_depth_ref_witness :
    (CreateVKRenderPassBuild rtDS stEmpty).attachments.length =
        (fbColorViews rtDS.colors).length + 2 ∧
      (CreateVKRenderPassBuild rtDS stEmpty).depth_stencil_ref =
        AttachmentReference.ref ((fbColorViews rtDS.colors).length + 1)
          ImageLayout.eDepthStencilAttachmentOptimal ∧
      (CreateVKRenderPassBuild rtDS
          stEmpty).attachment_textures[(fbColorViews rtDS.colors).length]? =
        some (some texMsaa) ∧
      (CreateVKRenderPassBuild rtDS
          stEmpty).attachment_textures[(fbColorViews rtDS.colors).length +
          1]? = some (some texTransient) :=
  stencil_overwrites_depth_ref rtDS stEmpty attDepth attStencil rfl rfl

/-! Canvas save/restore accounting. -/

theorem applyOps_count (ops : List SROp) :
    ∀ c : Canvas, 1 ≤ c.GetSaveCount →
      (applyOps ops c).1.GetSaveCount + (applyOps ops c).2 =
          c.GetSaveCount + countSaves ops ∧
        1 ≤ (applyOps ops c).1.GetSaveCount := by
  induction ops with
  | nil =>
    intro c h
    exact ⟨by simp [applyOps, countSaves], by simpa [applyOps] using h⟩
  | cons op tl ih =>
    intro c h
    cases op
    · have hsave : c.Save.GetSaveCount = c.GetSaveCount + 1 := by
        simp [Canvas.Save, Canvas.GetSaveCount]
      obtain ⟨h1, h2⟩ := ih c.Save (by omega)
      simp only [applyOps, countSaves]
      exact ⟨by omega, h2⟩
    · simp only [applyOps, countSaves]
      by_cases hlen : c.transform_stack.length ≤ 1
      · have hres : c.Restore = (false, c) := by
          simp [Canvas.Restore, hlen]
        obtain ⟨h1, h2⟩ := ih c h
        rw [hres]
        refine ⟨?_, h2⟩
        simp only [Bool.false_eq_true, if_false]
        omega
      · have hres : c.Restore =
            (true, { transform_stack := c.transform_stack.tail }) := by
          simp [Canvas.Restore, hlen]
        have htail :
            (Canvas.mk c.transform_stack.tail).GetSaveCount + 1 =
              c.GetSaveCount := by
          simp only [Canvas.GetSaveCount, List.length_tail]
          omega
        obtain ⟨h1, h2⟩ := ih (Canvas.mk c.transform_stack.tail) (by
          simp only [Canvas.GetSaveCount, List.length_tail]
          simp only [Canvas.GetSaveCount] at h
          omega)
        rw [hres]
        refine ⟨?_, h2⟩
        simp only [if_true]
        omega

/-- C9: running any save/restore sequence from a fresh canvas leaves
`GetSaveCount` equal to 1 + (number of saves − number of successful
restores), the number of successful restores never exceeds the number of
saves, the count never drops below 1, and a `Restore` at depth 1 returns
false and leaves the stack unchanged. -/
theorem save_restore_count (ops : List SROp) :
    (applyOps ops Canvas.fresh).1.GetSaveCount =
        1 + (countSaves ops - (applyOps ops Canvas.fresh).2) ∧
      (applyOps ops Canvas.fresh).2 ≤ countSaves ops ∧
      1 ≤ (applyOps ops Canvas.fresh).1.GetSaveCount ∧
      ∀ c : Canvas, c.GetSaveCount = 1 → c.Restore = (false, c) := by
  have hfresh : Canvas.fresh.GetSaveCount = 1 := rfl
  obtain ⟨hsum, hge⟩ := applyOps_count ops Canvas.fresh (by rw [hfresh])
  rw [hfresh] at hsum
  refine ⟨by omega, by omega, hge, ?_⟩
  intro c hc
  have hlen : c.transform_stack.length ≤ 1 := by
    unfold Canvas.GetSaveCount at hc
    omega
  simp [Canvas.Restore, hlen]

/-- Witness: the accounting evaluated on save, restore, restore (the
second hitting the root), save — and a root-level restore refused. -/
theorem save_restore_count_witness :
    (applyOps [SROp.save, SROp.restore, SROp.restore, SROp.save]
          Canvas.fresh).1.GetSaveCount =
        1 + (countSaves [SROp.save, SROp.restore, SROp.restore, SROp.save] -
          (applyOps [SROp.save, SROp.restore, SROp.restore, SROp.save]
            Canvas.fresh).2) ∧
      Canvas.fresh.Restore = (false, Canvas.fresh) :=
  ⟨(save_restore_count
      [SROp.save, SROp.restore, SROp.restore, SROp.save]).1,
    (save_restore_count
        [SROp.save, SROp.restore, SROp.restore, SROp.save]).2.2.2
      Canvas.fresh rfl⟩

/-! Observables of the encode path. -/

/-- Whether an event is a pipeline barrier. -/
def isBarrierEvent : Event → Bool
  | Event.pipelineBarrier _ => true
  | _ => false

/-- The number of draw calls (indexed or not) in a trace. -/
def drawCount (es : List Event) : Nat :=
  es.countP (fun e =>
    match e with
    | Event.draw _ _ _ => true
    | Event.drawIndexed _ _ _ => true
    | _ => false)

/-- The image-resource ids of the sampled images referenced by one
command's vertex and fragment bindings. -/
def commandSampledIds (c : Command) : List Nat :=
  (c.vertex_bindings.sampled_images ++
    c.fragment_bindings.sampled_images).map (fun p => p.2.id)

/-- The image-resource ids of the sampled images referenced by any
command in the list. -/
def sampledIds (commands : List Command) : List Nat :=
  (commands.map commandSampledIds).flatten

/-- Whether `EncodeCommand` accepts a command: the checks of
render_pass_vk.cc:389-428, which read only the command and the tracking
outcome, never the threaded state. -/
def commandEncodeOk (ctx : EncCtx) (c : Command) : Bool :=
  match c.vertex_buffer.vertex_buffer.buffer with
  | none => false
  | some buf =>
    match buf.device_buffer with
    | none => false
    | some _ =>
      if !ctx.track_ok then false
      else if c.vertex_buffer.index_type ≠ IndexType.kNone then
        match c.vertex_buffer.index_buffer.buffer with
        | none => false
        | some ibuf =>
          match ibuf.device_buffer with
          | none => false
          | some _ => ctx.track_ok
      else true

/-- The failure conditions named by the claim: an empty vertex buffer
view, an unresolvable vertex device buffer, or (when indexed) an empty or
unresolvable index buffer. -/
def commandBufferBad (c : Command) : Bool :=
  (match c.vertex_buffer.vertex_buffer.buffer with
   | none => true
   | some buf => buf.device_buffer.isNone) ||
  ((c.vertex_buffer.index_type ≠ IndexType.kNone : Bool) &&
    (match c.vertex_buffer.index_buffer.buffer with
     | none => true
     | some ibuf => ibuf.device_buffer.isNone))

/-- The calls a successfully encoded command records, in order
(render_pass_vk.cc:348-450): descriptor set, pipeline, stencil
reference, vertex buffer, then either index buffer plus indexed draw, or
a plain draw. -/
def specCommandEvents (c : Command) (set : Nat) : List Event :=
  [Event.bindDescriptorSets set, Event.bindPipeline c.pipeline,
    Event.setStencilReference c.stencil_reference] ++
  (match c.vertex_buffer.vertex_buffer.buffer with
   | none => []
   | some buf =>
     match buf.device_buffer with
     | none => []
     | some vb =>
       Event.bindVertexBuffers vb c.vertex_buffer.vertex_buffer.offset ::
       (if c.vertex_buffer.index_type ≠ IndexType.kNone then
          match c.vertex_buffer.index_buffer.buffer with
          | none => []
          | some ibuf =>
            match ibuf.device_buffer with
            | none => []
            | some ib =>
              [Event.bindIndexBuffer ib c.vertex_buffer.index_buffer.offset
                  c.vertex_buffer.index_type,
                Event.drawIndexed c.vertex_buffer.vertex_count
                  c.instance_count c.base_vertex]
        else
          [Event.draw c.vertex_buffer.vertex_count c.instance_count
            c.base_vertex]))

/-! Lemmas about the pre-pass sampled-image transitions. -/

theorem setLayout_dead (st : VKState) (id : Nat) (b : BarrierVK) :
    ((st.setLayout id b).2).dead = st.dead := by
  unfold VKState.setLayout
  split <;> rfl

theorem updateImageLayouts_dead (imgs : List (Nat × Texture)) :
    ∀ st : VKState, ((updateImageLayouts imgs st).2).dead = st.dead := by
  induction imgs with
  | nil => intro st; rfl
  | cons hd tl ih =>
    intro st
    obtain ⟨k, tex⟩ := hd
    simp only [updateImageLayouts]
    by_cases hdead : tex.id ∈ st.dead
    · simp [VKState.setLayout, hdead]
    · simp [VKState.setLayout, hdead, ih]

theorem updateImageLayouts_cmds (imgs : List (Nat × Texture)) :
    ∀ st : VKState, ∃ tail,
      (updateImageLayouts imgs st).2.cmds = st.cmds ++ tail ∧
        ∀ e ∈ tail, isBarrierEvent e = true := by
  induction imgs with
  | nil => intro st; exact ⟨[], by simp [updateImageLayouts], by simp⟩
  | cons hd tl ih =>
    intro st
    obtain ⟨k, tex⟩ := hd
    simp only [updateImageLayouts]
    by_cases hdead : tex.id ∈ st.dead
    · refine ⟨[], ?_, by simp⟩
      simp [VKState.setLayout, hdead]
    · obtain ⟨tail, htail, hbar⟩ := ih
        { st with
            layouts := (tex.id, ImageLayout.eShaderReadOnlyOptimal) ::
              st.layouts,
            cmds := st.cmds ++
              [Event.pipelineBarrier
                { tex := tex.id,
                  new_layout := ImageLayout.eShaderReadOnlyOptimal }] }
      refine ⟨Event.pipelineBarrier
          { tex := tex.id,
            new_layout := ImageLayout.eShaderReadOnlyOptimal } :: tail,
        ?_, ?_⟩
      · simp only [VKState.setLayout, hdead, if_neg, ite_false]
        simp at htail ⊢
        simp [htail]
      · intro e he
        rcases List.mem_cons.mp he with heq | hmem
        · subst heq; rfl
        · exact hbar e hmem

theorem updateImageLayouts_ok (imgs : List (Nat × Texture)) :
    ∀ st : VKState, (updateImageLayouts imgs st).1 = true ↔
      ∀ p ∈ imgs, p.2.id ∉ st.dead := by
  induction imgs with
  | nil => intro st; simp [updateImageLayouts]
  | cons hd tl ih =>
    intro st
    obtain ⟨k, tex⟩ := hd
    by_cases hdead : tex.id ∈ st.dead
    · simp [updateImageLayouts, VKState.setLayout, hdead]
    · have hstep : updateImageLayouts ((k, tex) :: tl) st =
          updateImageLayouts tl
            { st with
                layouts := (tex.id, ImageLayout.eShaderReadOnlyOptimal) ::
                  st.layouts,
                cmds := st.cmds ++
                  [Event.pipelineBarrier
                    { tex := tex.id,
                      new_layout :=
                        ImageLayout.eShaderReadOnlyOptimal }] } := by
        simp [updateImageLayouts, VKState.setLayout, hdead]
      rw [hstep, ih]
      constructor
      · intro hall p hp
        rcases List.mem_cons.mp hp with heq | hmem
        · subst heq; exact hdead
        · exact hall p hmem
      · intro hall p hp
        exact hall p (List.mem_cons_of_mem _ hp)

theorem updateImageLayouts_barriers (imgs : List (Nat × Texture)) :
    ∀ st : VKState, (updateImageLayouts imgs st).1 = true →
      ∀ p ∈ imgs,
        Event.pipelineBarrier
            { tex := p.2.id,
              new_layout := ImageLayout.eShaderReadOnlyOptimal } ∈
          (updateImageLayouts imgs st).2.cmds := by
  induction imgs with
  | nil =>
    intro st _ p hp
    cases hp
  | cons hd tl ih =>
    intro st hok p hp
    obtain ⟨k, tex⟩ := hd
    have hdead : tex.id ∉ st.dead := by
      have := (updateImageLayouts_ok ((k, tex) :: tl) st).mp hok
      exact this (k, tex) (List.mem_cons_self _ _)
    have hstep : updateImageLayouts ((k, tex) :: tl) st =
        updateImageLayouts tl
          { st with
              layouts := (tex.id, ImageLayout.eShaderReadOnlyOptimal) ::
                st.layouts,
              cmds := st.cmds ++
                [Event.pipelineBarrier
                  { tex := tex.id,
                    new_layout := ImageLayout.eShaderReadOnlyOptimal }] } := by
      simp [updateImageLayouts, VKState.setLayout, hdead]
    rw [hstep] at hok ⊢
    rcases List.mem_cons.mp hp with heq | hmem
    · subst heq
      obtain ⟨tail, htail, -⟩ := updateImageLayouts_cmds tl _
      rw [htail]
      simp
    · exact ih _ hok p hmem

theorem updateCommandLayouts_dead (c : Command) (st : VKState) :
    ((updateCommandLayouts c st).2).dead = st.dead := by
  unfold updateCommandLayouts
  by_cases h :
      (updateImageLayouts c.vertex_bindings.sampled_images st).1 = true <;>
    simp [h, updateImageLayouts_dead]

theorem updateCommandLayouts_cmds (c : Command) (st : VKState) :
    ∃ tail, (updateCommandLayouts c st).2.cmds = st.cmds ++ tail ∧
      ∀ e ∈ tail, isBarrierEvent e = true := by
  unfold updateCommandLayouts
  obtain ⟨t1, ht1, hb1⟩ :=
    updateImageLayouts_cmds c.vertex_bindings.sampled_images st
  by_cases h :
      (updateImageLayouts c.vertex_bindings.sampled_images st).1 = true
  · obtain ⟨t2, ht2, hb2⟩ :=
      updateImageLayouts_cmds c.fragment_bindings.sampled_images
        (updateImageLayouts c.vertex_bindings.sampled_images st).2
    refine ⟨t1 ++ t2, ?_, ?_⟩
    · simp [h, ht2, ht1]
    · intro e he
      rcases List.mem_append.mp he with hm | hm
      · exact hb1 e hm
      · exact hb2 e hm
  · refine ⟨t1, ?_, hb1⟩
    simp [h, ht1]

theorem updateCommandLayouts_ok (c : Command) (st : VKState) :
    (updateCommandLayouts c st).1 = true ↔
      ∀ id ∈ commandSampledIds c, id ∉ st.dead := by
  unfold updateCommandLayouts
  by_cases h :
      (updateImageLayouts c.vertex_bindings.sampled_images st).1 = true
  · have hv := (updateImageLayouts_ok _ st).mp h
    simp only [h, if_true]
    rw [updateImageLayouts_ok, updateImageLayouts_dead]
    constructor
    · intro hf id hid
      simp only [commandSampledIds, List.mem_map, List.mem_append] at hid
      obtain ⟨p, hp, hpid⟩ := hid
      subst hpid
      rcases hp with hp | hp
      · exact hv p hp
      · exact hf p hp
    · intro hall p hp
      refine hall p.2.id ?_
      simp only [commandSampledIds, List.mem_map, List.mem_append]
      exact ⟨p, Or.inr hp, rfl⟩
  · simp only [h, if_false]
    constructor
    · intro hc
      exact absurd hc h
    · intro hall
      exfalso
      refine h ((updateImageLayouts_ok _ st).mpr ?_)
      intro p hp
      refine hall p.2.id ?_
      simp only [commandSampledIds, List.mem_map, List.mem_append]
      exact ⟨p, Or.inl hp, rfl⟩

theorem updateCommandLayouts_barriers (c : Command) (st : VKState)
    (hok : (updateCommandLayouts c st).1 = true) :
    ∀ id ∈ commandSampledIds c,
      Event.pipelineBarrier
          { tex := id, new_layout := ImageLayout.eShaderReadOnlyOptimal } ∈
        (updateCommandLayouts c st).2.cmds := by
  intro id hid
  have hvflag :
      (updateImageLayouts c.vertex_bindings.sampled_images st).1 = true := by
    by_contra hc
    unfold updateCommandLayouts at hok
    simp [hc] at hok
  have hfflag :
      (updateImageLayouts c.fragment_bindings.sampled_images
        (updateImageLayouts c.vertex_bindings.sampled_images st).2).1 =
        true := by
    unfold updateCommandLayouts at hok
    simpa [hvflag] using hok
  have hres : (updateCommandLayouts c st).2 =
      (updateImageLayouts c.fragment_bindings.sampled_images
        (updateImageLayouts c.vertex_bindings.sampled_images st).2).2 := by
    unfold updateCommandLayouts
    simp [hvflag]
  rw [hres]
  simp only [commandSampledIds, List.mem_map, List.mem_append] at hid
  obtain ⟨p, hp, hpid⟩ := hid
  subst hpid
  rcases hp with hp | hp
  · have hmem := updateImageLayouts_barriers _ st hvflag p hp
    obtain ⟨tail, htail, -⟩ :=
      updateImageLayouts_cmds c.fragment_bindings.sampled_images
        (updateImageLayouts c.vertex_bindings.sampled_images st).2
    rw [htail]
    exact List.mem_append_left _ hmem
  · exact updateImageLayouts_barriers _ _ hfflag p hp

theorem UpdateBindingLayouts_dead (commands : List Command) :
    ∀ st : VKState, ((UpdateBindingLayouts commands st).2).dead = st.dead := by
  induction commands with
  | nil => intro st; rfl
  | cons c tl ih =>
    intro st
    by_cases h : (updateCommandLayouts c st).1 = true <;>
      simp [UpdateBindingLayouts, h, ih, updateCommandLayouts_dead]

theorem UpdateBindingLayouts_cmds (commands : List Command) :
    ∀ st : VKState, ∃ tail,
      (UpdateBindingLayouts commands st).2.cmds = st.cmds ++ tail ∧
        ∀ e ∈ tail, isBarrierEvent e = true := by
  induction commands with
  | nil => intro st; exact ⟨[], by simp [UpdateBindingLayouts], by simp⟩
  | cons c tl ih =>
    intro st
    obtain ⟨t1, ht1, hb1⟩ := updateCommandLayouts_cmds c st
    by_cases h : (updateCommandLayouts c st).1 = true
    · obtain ⟨t2, ht2, hb2⟩ := ih (updateCommandLayouts c st).2
      refine ⟨t1 ++ t2, ?_, ?_⟩
      · simp [UpdateBindingLayouts, h, ht2, ht1]
      · intro e he
        rcases List.mem_append.mp he with hm | hm
        · exact hb1 e hm
        · exact hb2 e hm
    · refine ⟨t1, ?_, hb1⟩
      simp [UpdateBindingLayouts, h, ht1]

theorem UpdateBindingLayouts_ok (commands : List Command) :
    ∀ st : VKState, (UpdateBindingLayouts commands st).1 = true ↔
      ∀ id ∈ sampledIds commands, id ∉ st.dead := by
  induction commands with
  | nil => intro st; simp [UpdateBindingLayouts, sampledIds]
  | cons c tl ih =>
    intro st
    by_cases h : (updateCommandLayouts c st).1 = true
    · have hc := (updateCommandLayouts_ok c st).mp h
      simp only [UpdateBindingLayouts, h, if_true]
      rw [ih, updateCommandLayouts_dead]
      constructor
      · intro htl id hid
        simp only [sampledIds, List.map_cons, List.flatten_cons,
          List.mem_append] at hid
        rcases hid with hid | hid
        · exact hc id hid
        · exact htl id hid
      · intro hall id hid
        refine hall id ?_
        simp only [sampledIds, List.map_cons, List.flatten_cons,
          List.mem_append]
        exact Or.inr hid
    · simp only [UpdateBindingLayouts, h, if_false]
      constructor
      · intro hc
        exact absurd hc h
      · intro hall
        exfalso
        refine h ((updateCommandLayouts_ok c st).mpr ?_)
        intro id hid
        refine hall id ?_
        simp only [sampledIds, List.map_cons, List.flatten_cons,
          List.mem_append]
        exact Or.inl hid

theorem UpdateBindingLayouts_barriers (commands : List Command) :
    ∀ st : VKState, (UpdateBindingLayouts commands st).1 = true →
      ∀ id ∈ sampledIds commands,
        Event.pipelineBarrier
            { tex := id, new_layout := ImageLayout.eShaderReadOnlyOptimal } ∈
          (UpdateBindingLayouts commands st).2.cmds := by
  induction commands with
  | nil =>
    intro st _ id hid
    simp [sampledIds] at hid
  | cons c tl ih =>
    intro st hok id hid
    have hflag : (updateCommandLayouts c st).1 = true := by
      by_contra hc
      unfold UpdateBindingLayouts at hok
      simp [hc] at hok
    have hres : UpdateBindingLayouts (c :: tl) st =
        UpdateBindingLayouts tl (updateCommandLayouts c st).2 := by
      rw [UpdateBindingLayouts]
      simp [hflag]
    rw [hres] at hok ⊢
    simp only [sampledIds, List.map_cons, List.flatten_cons,
      List.mem_append] at hid
    rcases hid with hid | hid
    · have hmem := updateCommandLayouts_barriers c st hflag id hid
      obtain ⟨tail, htail, -⟩ :=
        UpdateBindingLayouts_cmds tl (updateCommandLayouts c st).2
      rw [htail]
      exact List.mem_append_left _ hmem
    · exact ih _ hok id hid

/-- One state's command trace extends another's by barrier events only. -/
def cmdsExtend (st st' : VKState) : Prop :=
  ∃ tail, st'.cmds = st.cmds ++ tail ∧ ∀ e ∈ tail, isBarrierEvent e = true

theorem cmdsExtend_refl (st : VKState) : cmdsExtend st st :=
  ⟨[], by simp, by simp⟩

theorem cmdsExtend_trans {s1 s2 s3 : VKState} (h1 : cmdsExtend s1 s2)
    (h2 : cmdsExtend s2 s3) : cmdsExtend s1 s3 := by
  obtain ⟨t1, ht1, hb1⟩ := h1
  obtain ⟨t2, ht2, hb2⟩ := h2
  refine ⟨t1 ++ t2, by simp [ht2, ht1], ?_⟩
  intro e he
  rcases List.mem_append.mp he with hm | hm
  · exact hb1 e hm
  · exact hb2 e hm

theorem SetTextureLayout_extends (a : Attachment)
    (desc : AttachmentDescription) (sel : TexSel) (st : VKState) :
    cmdsExtend st (SetTextureLayout a desc sel st) := by
  unfold SetTextureLayout
  cases h : a.getTexture sel
  · exact cmdsExtend_refl st
  · rename_i tex
    by_cases hinit : desc.initialLayout = ImageLayout.eGeneral
    · by_cases hdead : tex.id ∈ st.dead
      · refine ⟨[], ?_, by simp⟩
        simp [hinit, VKState.setLayout, hdead,
          VKState.setLayoutWithoutEncoding]
      · refine ⟨[Event.pipelineBarrier
          { tex := tex.id, new_layout := ImageLayout.eGeneral }], ?_, ?_⟩
        · simp [hinit, VKState.setLayout, hdead,
            VKState.setLayoutWithoutEncoding]
        · intro e he
          rcases List.mem_singleton.mp he with heq
          subst heq
          rfl
    · refine ⟨[], ?_, by simp⟩
      simp [hinit, VKState.setLayoutWithoutEncoding]

theorem appendAttachment_state_extends (b : RenderPassBuild)
    (att : Attachment) (sel : TexSel) :
    cmdsExtend b.state (appendAttachment b att sel).state :=
  SetTextureLayout_extends att _ sel b.state

theorem colorStep_state_extends (b : RenderPassBuild) (k : Nat)
    (c : Attachment) : cmdsExtend b.state (colorStep b k c).state := by
  unfold colorStep
  by_cases hres : c.resolve_texture.isSome
  · simp only [hres, if_true]
    exact cmdsExtend_trans (appendAttachment_state_extends _ c TexSel.texture)
      (appendAttachment_state_extends _ c TexSel.resolve_texture)
  · simp only [hres, if_false]
    exact appendAttachment_state_extends _ c TexSel.texture

theorem colorLoop_state_extends (cs : List (Nat × Attachment)) :
    ∀ b : RenderPassBuild, cmdsExtend b.state (colorLoop cs b).state := by
  induction cs with
  | nil => intro b; exact cmdsExtend_refl _
  | cons hd tl ih =>
    intro b
    obtain ⟨k, c⟩ := hd
    exact cmdsExtend_trans (colorStep_state_extends b k c)
      (ih (colorStep b k c))

theorem build_state_extends (rt : RenderTarget) (st : VKState) :
    cmdsExtend st (CreateVKRenderPassBuild rt st).state := by
  unfold CreateVKRenderPassBuild
  have h0 : cmdsExtend st (colorLoop rt.colors (initialBuild rt st)).state :=
    colorLoop_state_extends rt.colors (initialBuild rt st)
  cases hdep : rt.depth <;> cases hst : rt.stencil <;>
    simp only [hdep, hst] <;>
    first
      | exact h0
      | exact cmdsExtend_trans h0 (appendAttachment_state_extends _ _ _)
      | exact cmdsExtend_trans h0
          (cmdsExtend_trans (appendAttachment_state_extends _ _ _)
            (appendAttachment_state_extends _ _ _))

theorem drawCount_append (a b : List Event) :
    drawCount (a ++ b) = drawCount a + drawCount b := by
  simp [drawCount, List.countP_append]

theorem drawCount_of_barriers (es : List Event)
    (h : ∀ e ∈ es, isBarrierEvent e = true) : drawCount es = 0 := by
  induction es with
  | nil => rfl
  | cons e tl ih =>
    have hb := h e (List.mem_cons_self _ _)
    have htl : ∀ x ∈ tl, isBarrierEvent x = true := fun x hx =>
      h x (List.mem_cons_of_mem _ hx)
    cases e <;> simp [isBarrierEvent] at hb
    have htl2 := ih htl
    simp only [drawCount, List.countP_cons] at htl2 ⊢
    simp [htl2]

theorem EncodeCommand_fst (ctx : EncCtx) (c : Command) (set : Nat)
    (st : VKState) :
    (EncodeCommand ctx c set st).1 = commandEncodeOk ctx c := by
  rcases hvb : c.vertex_buffer.vertex_buffer.buffer with _ | buf
  · simp [EncodeCommand, commandEncodeOk, hvb]
  · rcases hdb : buf.device_buffer with _ | vb
    · simp [EncodeCommand, commandEncodeOk, hvb, hdb]
    · rcases htr : ctx.track_ok with _ | _
      · simp [EncodeCommand, commandEncodeOk, hvb, hdb, htr]
      · by_cases hidx : c.vertex_buffer.index_type = IndexType.kNone
        · simp [EncodeCommand, commandEncodeOk, hvb, hdb, htr, hidx]
        · rcases hib : c.vertex_buffer.index_buffer.buffer with _ | ibuf
          · simp [EncodeCommand, commandEncodeOk, hvb, hdb, htr, hidx, hib]
          · rcases hidb : ibuf.device_buffer with _ | ib
            · simp [EncodeCommand, commandEncodeOk, hvb, hdb, htr, hidx,
                hib, hidb]
            · simp [EncodeCommand, commandEncodeOk, hvb, hdb, htr, hidx,
                hib, hidb]

theorem EncodeCommand_success_cmds (ctx : EncCtx) (c : Command) (set : Nat)
    (st : VKState) (h : commandEncodeOk ctx c = true) :
    (EncodeCommand ctx c set st).2.cmds =
      st.cmds ++ specCommandEvents c set := by
  rcases hvb : c.vertex_buffer.vertex_buffer.buffer with _ | buf
  · simp [commandEncodeOk, hvb] at h
  · rcases hdb : buf.device_buffer with _ | vb
    · simp [commandEncodeOk, hvb, hdb] at h
    · rcases htr : ctx.track_ok with _ | _
      · simp [commandEncodeOk, hvb, hdb, htr] at h
      · by_cases hidx : c.vertex_buffer.index_type = IndexType.kNone
        · simp [EncodeCommand, specCommandEvents, hvb, hdb, htr, hidx,
            VKState.emit]
        · rcases hib : c.vertex_buffer.index_buffer.buffer with _ | ibuf
          · simp [commandEncodeOk, hvb, hdb, htr, hidx, hib] at h
          · rcases hidb : ibuf.device_buffer with _ | ib
            · simp [commandEncodeOk, hvb, hdb, htr, hidx, hib, hidb] at h
            · simp [EncodeCommand, specCommandEvents, hvb, hdb, htr, hidx,
                hib, hidb, VKState.emit]

theorem EncodeCommand_fail_cmds (ctx : EncCtx) (c : Command) (set : Nat)
    (st : VKState) (h : commandEncodeOk ctx c = false) :
    ∃ tail, (EncodeCommand ctx c set st).2.cmds = st.cmds ++ tail ∧
      drawCount tail = 0 := by
  rcases hvb : c.vertex_buffer.vertex_buffer.buffer with _ | buf
  · refine ⟨[Event.bindDescriptorSets set, Event.bindPipeline c.pipeline,
      Event.setStencilReference c.stencil_reference], ?_, ?_⟩
    · simp [EncodeCommand, hvb, VKState.emit]
    · simp [drawCount, List.countP_cons]
  · rcases hdb : buf.device_buffer with _ | vb
    · refine ⟨[Event.bindDescriptorSets set, Event.bindPipeline c.pipeline,
        Event.setStencilReference c.stencil_reference], ?_, ?_⟩
      · simp [EncodeCommand, hvb, hdb, VKState.emit]
      · simp [drawCount, List.countP_cons]
    · rcases htr : ctx.track_ok with _ | _
      · refine ⟨[Event.bindDescriptorSets set, Event.bindPipeline c.pipeline,
          Event.setStencilReference c.stencil_reference], ?_, ?_⟩
        · simp [EncodeCommand, hvb, hdb, htr, VKState.emit]
        · simp [drawCount, List.countP_cons]
      · by_cases hidx : c.vertex_buffer.index_type = IndexType.kNone
        · exfalso
          simp [commandEncodeOk, hvb, hdb, htr, hidx] at h
        · rcases hib : c.vertex_buffer.index_buffer.buffer with _ | ibuf
          · refine ⟨[Event.bindDescriptorSets set,
              Event.bindPipeline c.pipeline,
              Event.setStencilReference c.stencil_reference,
              Event.bindVertexBuffers vb
                c.vertex_buffer.vertex_buffer.offset], ?_, ?_⟩
            · simp [EncodeCommand, hvb, hdb, htr, hidx, hib, VKState.emit]
            · simp [drawCount, List.countP_cons]
          · rcases hidb : ibuf.device_buffer with _ | ib
            · refine ⟨[Event.bindDescriptorSets set,
                Event.bindPipeline c.pipeline,
                Event.setStencilReference c.stencil_reference,
                Event.bindVertexBuffers vb
                  c.vertex_buffer.vertex_buffer.offset], ?_, ?_⟩
              · simp [EncodeCommand, hvb, hdb, htr, hidx, hib, hidb,
                  VKState.emit]
              · simp [drawCount, List.countP_cons]
            · exfalso
              simp [commandEncodeOk, hvb, hdb, htr, hidx, hib, hidb] at h

theorem drawCount_specCommandEvents (ctx : EncCtx) (c : Command) (set : Nat)
    (h : commandEncodeOk ctx c = true) :
    drawCount (specCommandEvents c set) = 1 := by
  rcases hvb : c.vertex_buffer.vertex_buffer.buffer with _ | buf
  · simp [commandEncodeOk, hvb] at h
  · rcases hdb : buf.device_buffer with _ | vb
    · simp [commandEncodeOk, hvb, hdb] at h
    · rcases htr : ctx.track_ok with _ | _
      · simp [commandEncodeOk, hvb, hdb, htr] at h
      · by_cases hidx : c.vertex_buffer.index_type = IndexType.kNone
        · simp [specCommandEvents, hvb, hdb, hidx, drawCount,
            List.countP_cons]
        · rcases hib : c.vertex_buffer.index_buffer.buffer with _ | ibuf
          · simp [commandEncodeOk, hvb, hdb, htr, hidx, hib] at h
          · rcases hidb : ibuf.device_buffer with _ | ib
            · simp [commandEncodeOk, hvb, hdb, htr, hidx, hib, hidb] at h
            · simp [specCommandEvents, hvb, hdb, hidx, hib, hidb,
                drawCount, List.countP_cons]

theorem encodeLoop_success_cmds (ctx : EncCtx) (sets : List Nat)
    (cmds : List Command) :
    ∀ (k : Nat) (st : VKState), (encodeLoop ctx sets cmds k st).1 = true →
      (encodeLoop ctx sets cmds k st).2.cmds =
        st.cmds ++ ((cmds.enumFrom k).map
          (fun p => specCommandEvents p.2 (sets.getD p.1 0))).flatten := by
  induction cmds with
  | nil =>
    intro k st _
    simp [encodeLoop, List.enumFrom]
  | cons c tl ih =>
    intro k st hok
    by_cases hflag : commandEncodeOk ctx c = true
    · have h1 : (EncodeCommand ctx c (sets.getD k 0) st).1 = true := by
        rw [EncodeCommand_fst]
        exact hflag
      have hres : encodeLoop ctx sets (c :: tl) k st =
          encodeLoop ctx sets tl (k + 1)
            (EncodeCommand ctx c (sets.getD k 0) st).2 := by
        rw [encodeLoop, if_pos h1]
      rw [hres] at hok ⊢
      rw [ih (k + 1) _ hok, EncodeCommand_success_cmds ctx c _ st hflag]
      simp [List.enumFrom, List.append_assoc]
    · exfalso
      have h1 : (EncodeCommand ctx c (sets.getD k 0) st).1 = false := by
        rw [EncodeCommand_fst]
        simpa using hflag
      rw [encodeLoop, if_neg (by rw [h1]; exact Bool.false_ne_true)] at hok
      rw [h1] at hok
      cases hok

theorem encodeLoop_fail (ctx : EncCtx) (sets : List Nat)
    (cmds : List Command) :
    ∀ (j : Nat) (c : Command) (k : Nat) (st : VKState),
      cmds[j]? = some c → commandEncodeOk ctx c = false →
      (encodeLoop ctx sets cmds k st).1 = false ∧
        ∃ tail, (encodeLoop ctx sets cmds k st).2.cmds = st.cmds ++ tail ∧
          drawCount tail ≤ j := by
  induction cmds with
  | nil =>
    intro j c k st hj
    simp at hj
  | cons c0 tl ih =>
    intro j c k st hj hbad
    by_cases hflag : commandEncodeOk ctx c0 = true
    · cases j with
      | zero =>
        exfalso
        simp at hj
        rw [hj] at hflag
        rw [hflag] at hbad
        cases hbad
      | succ j2 =>
        have hj2 : tl[j2]? = some c := by simpa using hj
        have h1 : (EncodeCommand ctx c0 (sets.getD k 0) st).1 = true := by
          rw [EncodeCommand_fst]
          exact hflag
        have hres : encodeLoop ctx sets (c0 :: tl) k st =
            encodeLoop ctx sets tl (k + 1)
              (EncodeCommand ctx c0 (sets.getD k 0) st).2 := by
          rw [encodeLoop, if_pos h1]
        obtain ⟨hfl, tail, htail, hdc⟩ :=
          ih j2 c (k + 1) (EncodeCommand ctx c0 (sets.getD k 0) st).2 hj2
            hbad
        rw [hres]
        refine ⟨hfl, specCommandEvents c0 (sets.getD k 0) ++ tail, ?_, ?_⟩
        · rw [htail, EncodeCommand_success_cmds ctx c0 _ st hflag,
            List.append_assoc]
        · rw [drawCount_append, drawCount_specCommandEvents ctx c0 _ hflag]
          omega
    · have hbad0 : commandEncodeOk ctx c0 = false := by
        simpa using hflag
      have h1 : (EncodeCommand ctx c0 (sets.getD k 0) st).1 = false := by
        rw [EncodeCommand_fst]
        exact hbad0
      have hres : encodeLoop ctx sets (c0 :: tl) k st =
          EncodeCommand ctx c0 (sets.getD k 0) st := by
        rw [encodeLoop, if_neg (by rw [h1]; exact Bool.false_ne_true)]
      obtain ⟨tail, htail, hdc⟩ :=
        EncodeCommand_fail_cmds ctx c0 (sets.getD k 0) st hbad0
      rw [hres]
      exact ⟨h1, tail, htail, by omega⟩

theorem OnEncodeCommands_main (ctx : EncCtx) (rt : RenderTarget)
    (commands : List Command) (st : VKState) (sets : List Nat)
    (hcb : ctx.cb_alive = true) (henc : ctx.encoder_ok = true)
    (hubl : (UpdateBindingLayouts commands st).1 = true)
    (hpass : ctx.pass_ok = true) (hfb : ctx.fb_ok = true)
    (htrk : ctx.track_ok = true) (hds : ctx.desc_sets = some sets) :
    OnEncodeCommands ctx rt commands true st =
      ((encodeLoop ctx sets commands 0
          (((CreateVKRenderPassBuild rt
              (UpdateBindingLayouts commands st).2).state).emit
            Event.beginRenderPass)).1,
        ((encodeLoop ctx sets commands 0
            (((CreateVKRenderPassBuild rt
                (UpdateBindingLayouts commands st).2).state).emit
              Event.beginRenderPass)).2).emit Event.endRenderPass) := by
  unfold OnEncodeCommands
  simp [hcb, henc, hubl, hpass, hfb, htrk, hds]

theorem OnEncodeCommands_true_inv (ctx : EncCtx) (rt : RenderTarget)
    (commands : List Command) (st : VKState)
    (h : (OnEncodeCommands ctx rt commands true st).1 = true) :
    ctx.cb_alive = true ∧ ctx.encoder_ok = true ∧
      (UpdateBindingLayouts commands st).1 = true ∧ ctx.pass_ok = true ∧
      ctx.fb_ok = true ∧ ctx.track_ok = true ∧
      ∃ sets, ctx.desc_sets = some sets := by
  unfold OnEncodeCommands at h
  by_cases hcb : ctx.cb_alive = true
  case neg => simp [hcb] at h
  by_cases henc : ctx.encoder_ok = true
  case neg => simp [hcb, henc] at h
  by_cases hubl : (UpdateBindingLayouts commands st).1 = true
  case neg => simp [hcb, henc, hubl] at h
  by_cases hpass : ctx.pass_ok = true
  case neg => simp [hcb, henc, hubl, hpass] at h
  by_cases hfb : ctx.fb_ok = true
  case neg => simp [hcb, henc, hubl, hpass, hfb] at h
  by_cases htrk : ctx.track_ok = true
  case neg => simp [hcb, henc, hubl, hpass, hfb, htrk] at h
  cases hds : ctx.desc_sets with
  | none => rw [hds] at h; simp [hcb, henc, hubl, hpass, hfb, htrk] at h
  | some sets =>
    exact ⟨hcb, henc, hubl, hpass, hfb, htrk, sets, rfl⟩

theorem commandBufferBad_encodeOk (ctx : EncCtx) (c : Command)
    (h : commandBufferBad c = true) : commandEncodeOk ctx c = false := by
  unfold commandBufferBad at h
  rcases hvb : c.vertex_buffer.vertex_buffer.buffer with _ | buf
  · simp [commandEncodeOk, hvb]
  · rw [hvb] at h
    rcases hdb : buf.device_buffer with _ | vb
    · simp [commandEncodeOk, hvb, hdb]
    · simp [hdb] at h
      obtain ⟨hidx, hibad⟩ := h
      rcases hib : c.vertex_buffer.index_buffer.buffer with _ | ibuf
      · rcases htr : ctx.track_ok with _ | _ <;>
          simp [commandEncodeOk, hvb, hdb, hib, hidx, htr]
      · rw [hib] at hibad
        simp at hibad
        rcases htr : ctx.track_ok with _ | _ <;>
          simp [commandEncodeOk, hvb, hdb, hib, hibad, hidx, htr]

/-- C6: on a successful encode, every sampled image referenced by any
command's vertex or fragment bindings has a barrier to the
shader-read-only layout recorded before the render pass begins; and if
any referenced sampled image cannot be transitioned (its resource is
gone), the encode returns failure and the render pass is never begun. -/
theorem sampled_images_transitioned_before_pass (ctx : EncCtx)
    (rt : RenderTarget) (commands : List Command) (st : VKState)
    (hcmds : st.cmds = []) :
    ((OnEncodeCommands ctx rt commands true st).1 = true →
      ∃ pre post,
        (OnEncodeCommands ctx rt commands true st).2.cmds =
            pre ++ Event.beginRenderPass :: post ∧
          ∀ id ∈ sampledIds commands,
            Event.pipelineBarrier
                { tex := id,
                  new_layout := ImageLayout.eShaderReadOnlyOptimal } ∈
              pre) ∧
      ((∃ id ∈ sampledIds commands, id ∈ st.dead) →
        (OnEncodeCommands ctx rt commands true st).1 = false ∧
          Event.beginRenderPass ∉
            (OnEncodeCommands ctx rt commands true st).2.cmds) := by
  constructor
  · intro hok
    obtain ⟨hcb, henc, hubl, hpass, hfb, htrk, sets, hds⟩ :=
      OnEncodeCommands_true_inv ctx rt commands st hok
    rw [OnEncodeCommands_main ctx rt commands st sets hcb henc hubl hpass
      hfb htrk hds] at hok ⊢
    have hloopflag : (encodeLoop ctx sets commands 0
        (((CreateVKRenderPassBuild rt
            (UpdateBindingLayouts commands st).2).state).emit
          Event.beginRenderPass)).1 = true := by
      simpa using hok
    have hloop := encodeLoop_success_cmds ctx sets commands 0 _ hloopflag
    obtain ⟨t2, ht2, hb2⟩ :=
      build_state_extends rt (UpdateBindingLayouts commands st).2
    refine ⟨(UpdateBindingLayouts commands st).2.cmds ++ t2,
      ((commands.enumFrom 0).map
          (fun p => specCommandEvents p.2 (sets.getD p.1 0))).flatten ++
        [Event.endRenderPass], ?_, ?_⟩
    · have hemit : ∀ (s : VKState) (e : Event),
          (s.emit e).cmds = s.cmds ++ [e] := fun s e => rfl
      rw [hemit, hloop, hemit, ht2]
      simp [List.append_assoc]
    · intro id hid
      exact List.mem_append_left _
        (UpdateBindingLayouts_barriers commands st hubl id hid)
  · rintro ⟨id, hid, hdead⟩
    have hubl_false : (UpdateBindingLayouts commands st).1 = false := by
      rcases hfl : (UpdateBindingLayouts commands st).1
      · rfl
      · exfalso
        exact (UpdateBindingLayouts_ok commands st).mp hfl id hid hdead
    obtain ⟨t1, ht1, hb1⟩ := UpdateBindingLayouts_cmds commands st
    have hnobegin : Event.beginRenderPass ∉
        (UpdateBindingLayouts commands st).2.cmds := by
      rw [ht1, hcmds]
      simp only [List.nil_append]
      intro hc
      have := hb1 _ hc
      simp [isBarrierEvent] at this
    unfold OnEncodeCommands
    by_cases hcb : ctx.cb_alive = true
    case neg => simp [hcb, hcmds]
    by_cases henc : ctx.encoder_ok = true
    case neg => simp [hcb, henc, hcmds]
    simp [hcb, henc, hubl_false, hnobegin]

/-- C7: if some command has an empty vertex buffer view or an
unresolvable vertex (or required index) device buffer, the whole encode
fails, and no command after the failing one issues a draw. -/
theorem encode_fails_on_bad_vertex_buffer (ctx : EncCtx)
    (rt : RenderTarget) (commands : List Command) (st : VKState) (j : Nat)
    (c : Command) (hcmds : st.cmds = []) (hj : commands[j]? = some c)
    (hbad : commandBufferBad c = true) :
    (OnEncodeCommands ctx rt commands true st).1 = false ∧
      drawCount (OnEncodeCommands ctx rt commands true st).2.cmds ≤ j := by
  have hceok : commandEncodeOk ctx c = false :=
    commandBufferBad_encodeOk ctx c hbad
  obtain ⟨t1, ht1, hb1⟩ := UpdateBindingLayouts_cmds commands st
  have hdc1 : drawCount (UpdateBindingLayouts commands st).2.cmds = 0 := by
    rw [ht1, hcmds, List.nil_append]
    exact drawCount_of_barriers t1 hb1
  obtain ⟨t2, ht2, hb2⟩ :=
    build_state_extends rt (UpdateBindingLayouts commands st).2
  have hdc2 : drawCount (CreateVKRenderPassBuild rt
      (UpdateBindingLayouts commands st).2).state.cmds = 0 := by
    rw [ht2, drawCount_append, hdc1, drawCount_of_barriers t2 hb2]
  by_cases hcb : ctx.cb_alive = true
  case neg =>
    have hres : OnEncodeCommands ctx rt commands true st = (false, st) := by
      unfold OnEncodeCommands
      simp [hcb]
    rw [hres]
    simp [hcmds, drawCount]
  by_cases henc : ctx.encoder_ok = true
  case neg =>
    have hres : OnEncodeCommands ctx rt commands true st = (false, st) := by
      unfold OnEncodeCommands
      simp [hcb, henc]
    rw [hres]
    simp [hcmds, drawCount]
  by_cases hubl : (UpdateBindingLayouts commands st).1 = true
  case neg =>
    have hres : OnEncodeCommands ctx rt commands true st =
        (false, (UpdateBindingLayouts commands st).2) := by
      unfold OnEncodeCommands
      simp [hcb, henc, hubl]
    rw [hres]
    simp [hdc1]
  by_cases hpass : ctx.pass_ok = true
  case neg =>
    have hres : OnEncodeCommands ctx rt commands true st =
        (false, (CreateVKRenderPassBuild rt
          (UpdateBindingLayouts commands st).2).state) := by
      unfold OnEncodeCommands
      simp [hcb, henc, hubl, hpass]
    rw [hres]
    simp [hdc2]
  by_cases hfb : ctx.fb_ok = true
  case neg =>
    have hres : OnEncodeCommands ctx rt commands true st =
        (false, (CreateVKRenderPassBuild rt
          (UpdateBindingLayouts commands st).2).state) := by
      unfold OnEncodeCommands
      simp [hcb, henc, hubl, hpass, hfb]
    rw [hres]
    simp [hdc2]
  by_cases htrk : ctx.track_ok = true
  case neg =>
    have hres : OnEncodeCommands ctx rt commands true st =
        (false, (CreateVKRenderPassBuild rt
          (UpdateBindingLayouts commands st).2).state) := by
      unfold OnEncodeCommands
      simp [hcb, henc, hubl, hpass, hfb, htrk]
    rw [hres]
    simp [hdc2]
  cases hds : ctx.desc_sets with
  | none =>
    have hres : OnEncodeCommands ctx rt commands true st =
        (false, (CreateVKRenderPassBuild rt
          (UpdateBindingLayouts commands st).2).state) := by
      unfold OnEncodeCommands
      simp [hcb, henc, hubl, hpass, hfb, htrk, hds]
    rw [hres]
    simp [hdc2]
  | some sets =>
    rw [OnEncodeCommands_main ctx rt commands st sets hcb henc hubl hpass
      hfb htrk hds]
    obtain ⟨hfl, tail, htail, hdc⟩ :=
      encodeLoop_fail ctx sets commands j c 0
        (((CreateVKRenderPassBuild rt
            (UpdateBindingLayouts commands st).2).state).emit
          Event.beginRenderPass) hj hceok
    refine ⟨hfl, ?_⟩
    have hemit : ∀ (s : VKState) (e : Event),
        (s.emit e).cmds = s.cmds ++ [e] := fun s e => rfl
    rw [hemit, htail, hemit]
    simp only [drawCount_append]
    have hbegin : drawCount [Event.beginRenderPass] = 0 := by
      simp [drawCount, List.countP_cons]
    have hend : drawCount [Event.endRenderPass] = 0 := by
      simp [drawCount, List.countP_cons]
    omega

/-- C8: a successful encode records, after the pre-pass barriers, the
begin of the render pass, then exactly the per-command call sequences in
list order — the i-th command bound to the i-th allocated descriptor
set — then the end of the pass: no reordering, skipping or batching. -/
theorem encode_in_order_with_desc_sets (ctx : EncCtx) (rt : RenderTarget)
    (commands : List Command) (st : VKState) (sets : List Nat)
    (hcmds : st.cmds = []) (hds : ctx.desc_sets = some sets)
    (hok : (OnEncodeCommands ctx rt commands true st).1 = true) :
    ∃ pre, (OnEncodeCommands ctx rt commands true st).2.cmds =
        pre ++ Event.beginRenderPass ::
          (((commands.enumFrom 0).map
              (fun p => specCommandEvents p.2 (sets.getD p.1 0))).flatten ++
            [Event.endRenderPass]) ∧
      ∀ e ∈ pre, isBarrierEvent e = true := by
  obtain ⟨hcb, henc, hubl, hpass, hfb, htrk, sets2, hds2⟩ :=
    OnEncodeCommands_true_inv ctx rt commands st hok
  rw [OnEncodeCommands_main ctx rt commands st sets hcb henc hubl hpass
    hfb htrk hds] at hok ⊢
  have hloopflag : (encodeLoop ctx sets commands 0
      (((CreateVKRenderPassBuild rt
          (UpdateBindingLayouts commands st).2).state).emit
        Event.beginRenderPass)).1 = true := by
    simpa using hok
  have hloop := encodeLoop_success_cmds ctx sets commands 0 _ hloopflag
  obtain ⟨t1, ht1, hb1⟩ := UpdateBindingLayouts_cmds commands st
  obtain ⟨t2, ht2, hb2⟩ :=
    build_state_extends rt (UpdateBindingLayouts commands st).2
  refine ⟨t1 ++ t2, ?_, ?_⟩
  · have hemit : ∀ (s : VKState) (e : Event),
        (s.emit e).cmds = s.cmds ++ [e] := fun s e => rfl
    rw [hemit, hloop, hemit, ht2, ht1, hcmds]
    simp [List.append_assoc]
  · intro e he
    rcases List.mem_append.mp he with hm | hm
    · exact hb1 e hm
    · exact hb2 e hm

/-- A context in which every external collaborator succeeds and one
descriptor set (handle 7) was allocated. -/
def ctxAllOk : EncCtx :=
  { cb_alive := true, encoder_ok := true, pass_ok := true, fb_ok := true,
    track_ok := true, desc_sets := some [7] }

/-- A buffer whose device buffer resolves to handle 5. -/
def bufGood : Buffer := { device_buffer := some 5 }

/-- A non-indexed draw command sampling `texPlain`, with a resolvable
vertex buffer. -/
def cmdSampled : Command :=
  { pipeline := 3,
    vertex_bindings := { sampled_images := [(0, texPlain)] },
    fragment_bindings := { sampled_images := [] },
    vertex_buffer :=
      { vertex_buffer := { buffer := some bufGood, offset := 0 },
        index_buffer := { buffer := none, offset := 0 },
        vertex_count := 6, index_type := IndexType.kNone },
    stencil_reference := 0, base_vertex := 0, instance_count := 1 }

/-- A command whose vertex buffer view is empty. -/
def cmdBadVertex : Command :=
  { pipeline := 3,
    vertex_bindings := { sampled_images := [] },
    fragment_bindings := { sampled_images := [] },
    vertex_buffer :=
      { vertex_buffer := { buffer := none, offset := 0 },
        index_buffer := { buffer := none, offset := 0 },
        vertex_count := 6, index_type := IndexType.kNone },
    stencil_reference := 0, base_vertex := 0, instance_count := 1 }

/-- A state in which the resource backing `texPlain` is gone. -/
def stDead2 : VKState := { layouts := [], dead := [2], cmds := [] }

/-- Witness: a successful encode of one sampling command records its
shader-read barrier before the pass; with the sampled resource gone the
same encode fails without beginning the pass. -/
theorem sampled_images_transitioned_before_pass_witness :
    (∃ pre post,
      (OnEncodeCommands ctxAllOk rtGap [cmdSampled] true stEmpty).2.cmds =
          pre ++ Event.beginRenderPass :: post ∧
        ∀ id ∈ sampledIds [cmdSampled],
          Event.pipelineBarrier
              { tex := id,
                new_layout := ImageLayout.eShaderReadOnlyOptimal } ∈
            pre) ∧
      ((OnEncodeCommands ctxAllOk rtGap [cmdSampled] true stDead2).1 =
          false ∧
        Event.beginRenderPass ∉
          (OnEncodeCommands ctxAllOk rtGap [cmdSampled] true
            stDead2).2.cmds) :=
  ⟨(sampled_images_transitioned_before_pass ctxAllOk rtGap [cmdSampled]
        stEmpty rfl).1 (by decide),
    (sampled_images_transitioned_before_pass ctxAllOk rtGap [cmdSampled]
        stDead2 rfl).2 (by decide)⟩

/-- Witness: encoding a single command with an empty vertex buffer view
fails and issues no draw. -/
theorem encode_fails_on_bad_vertex_buffer_witness :
    (OnEncodeCommands ctxAllOk rtGap [cmdBadVertex] true stEmpty).1 =
        false ∧
      drawCount
          (OnEncodeCommands ctxAllOk rtGap [cmdBadVertex] true
            stEmpty).2.cmds ≤ 0 :=
  encode_fails_on_bad_vertex_buffer ctxAllOk rtGap [cmdBadVertex] stEmpty
    0 cmdBadVertex rfl (by decide) (by decide)

/-- Witness: the ordered trace of a successful one-command encode. -/
theorem encode_in_order_with_desc_sets_witness :
    ∃ pre,
      (OnEncodeCommands ctxAllOk rtGap [cmdSampled] true stEmpty).2.cmds =
          pre ++ Event.beginRenderPass ::
            ((([cmdSampled].enumFrom 0).map
                (fun p => specCommandEvents p.2
                  (([7] : List Nat).getD p.1 0))).flatten ++
              [Event.endRenderPass]) ∧
        ∀ e ∈ pre, isBarrierEvent e = true :=
  encode_in_order_with_desc_sets ctxAllOk rtGap [cmdSampled] stEmpty [7]
    rfl rfl (by decide)

end Impeller
